import Mathlib

/-!
Verification of the CaptionsAI trending-hashtag aggregation and hashtag-ranking
engine.  The definitions below are a shallow embedding of the Python modules
`captionsai/hashtag_generator.py` and `captionsai/trending_hashtag_fetcher.py`:
pure computations become Lean functions, the mutable fetcher object
(cache and blocklist) becomes explicit state passing, network responses and
collaborator calls become oracle parameters, and Python exceptions become
`Except` values.  Times are modelled as rationals, Python ints as `Int`/`Nat`.
-/

namespace CaptionsAI

/-- Record for one trending hashtag, mirroring the `TrendingHashtagData`
dataclass of `trending_hashtag_fetcher.py`. -/
structure TrendingHashtagData where
  hashtag : String
  platform : String
  engagementScore : Option Int := none
  growthRate : Option ℚ := none
  category : Option String := none
  lastUpdated : Option String := none
deriving Repr, DecidableEq

/-- Result of one trending fetch, mirroring the `TrendingResult` dataclass. -/
structure TrendingResult where
  hashtags : List TrendingHashtagData
  source : String
  category : String
  platform : String
  success : Bool
  error : Option String := none
deriving Repr, DecidableEq

/-- Result of the content categorizer, mirroring `CategoryResult` of
`content_categorizer.py` (only fields read by the hashtag generator matter). -/
structure CategoryResult where
  primaryCategory : String
  secondaryCategories : List String := []
  confidenceScore : ℚ := 0
  description : String := ""
  success : Bool := true
  error : Option String := none
deriving Repr, DecidableEq

/-- Request data, mirroring the `HashtagRequest` dataclass of
`hashtag_generator.py`. -/
structure HashtagRequest where
  imagePath : String
  categoryResult : Option CategoryResult := none
  platform : String := "instagram"
  maxHashtags : Nat := 15
  includeTrending : Bool := true
  includeNiche : Bool := true
  includeBranded : Bool := false
  brandName : Option String := none
deriving Repr, DecidableEq

/-- One value of the JSON object produced by `json.loads` on the AI content.
Only the aspects the program observes are kept: a JSON array of strings; a
JSON array holding a non-string element (its Python type name — it makes
`_clean_hashtags` raise); a JSON string; a nested JSON object (only its keys
are observable downstream, via `in` and `len`); or an unsized value — a
number, boolean or null, which supports neither `len()` nor slicing. -/
inductive JsonValue where
  | strList (items : List String)
  | badList (typeName : String)
  | str (s : String)
  | obj (keys : List String)
  | unsized (typeName : String)
deriving Repr, DecidableEq

/-- A bucket value after `_parse_ai_hashtag_response` ran: lists of strings
have been cleaned (a list with a non-string element has raised instead), and
every non-list value passed through the `isinstance(data[key], list)` guard
untouched. -/
inductive ParsedValue where
  | strList (items : List String)
  | str (s : String)
  | obj (keys : List String)
  | unsized (typeName : String)
deriving Repr, DecidableEq

/-- Result record, mirroring the `EnhancedHashtagResult` dataclass.  In the
source `ai_generated_hashtags` is `list(ai_hashtags.values())` — the raw
parsed bucket values, kept here as `ParsedValue`s. -/
structure EnhancedHashtagResult where
  hashtags : List String
  trendingHashtags : List String
  nicheHashtags : List String
  brandedHashtags : List String
  aiGeneratedHashtags : List ParsedValue
  realTrendingHashtags : List TrendingHashtagData
  platform : String
  totalCount : Nat
  engagementPotential : Option ℚ := none
  trendingScore : Option ℚ := none
  success : Bool := true
  error : Option String := none
deriving Repr, DecidableEq

/-- Outcome of one `AIAnalyzer.analyze_image` call: the dict
`{"success": ..., "content": ..., "error": ...}` built in `ai_analyzer.py`. -/
structure AnalyzeResult where
  success : Bool
  content : String := ""
  error : Option String := none
deriving Repr, DecidableEq

/-- Python's `str.lower` on the ASCII range (the model of `.lower()`),
written over the character sequence so it evaluates by kernel reduction. -/
def lowerChar (c : Char) : Char :=
  if 65 ≤ c.toNat ∧ c.toNat ≤ 90 then Char.ofNat (c.toNat + 32) else c

/-- Lowercasing of a whole string, the model of Python's `s.lower()`. -/
def lowerString (s : String) : String := String.mk (s.data.map lowerChar)

/-- First-seen deduplication keyed by a string key, as performed by the
`seen = set()` loops of the source (`generate_enhanced_hashtags`,
`_extract_hashtags_from_text`, `_remove_duplicate_hashtags`).  The second
argument is the set of keys already seen, modelled as a list. -/
def dedupByKey (key : α → String) : List α → List String → List α
  | [], _ => []
  | x :: xs, seen =>
    if key x ∈ seen then dedupByKey key xs seen
    else x :: dedupByKey key xs (key x :: seen)

/-- Case-insensitive first-seen deduplication of hashtag strings, as in the
`hashtag.lower() not in seen` loop of `generate_enhanced_hashtags`. -/
def dedupCaseInsensitive (hashtags : List String) : List String :=
  dedupByKey (fun s => lowerString s) hashtags []

/-- Characters kept by `_clean_hashtags`: `c.isalnum() or c == '#'`. -/
def isHashtagChar (c : Char) : Bool := c.isAlphanum || c == '#'

/-- Python's `s.startswith('#')`, read off the character sequence. -/
def startsWithHash (s : String) : Bool :=
  match s.data with
  | [] => false
  | c :: _ => c == '#'

/-- The per-tag normalization of `_clean_hashtags`: prefix `#` if missing,
then keep only alphanumeric characters and `#`. -/
def cleanOneHashtag (hashtag : String) : String :=
  let prefixed := if startsWithHash hashtag then hashtag else "#" ++ hashtag
  String.mk (prefixed.data.filter isHashtagChar)

/-- `_clean_hashtags` of `hashtag_generator.py`: normalize each tag and keep
it only when `len > 2 and len <= 100`. -/
def cleanHashtags (hashtags : List String) : List String :=
  hashtags.filterMap (fun h =>
    let c := cleanOneHashtag h
    if 2 < c.length ∧ c.length ≤ 100 then some c else none)

/-- Characters matched by the body of the regex `#[A-Za-z0-9_]+` used by
`_extract_hashtags_from_text`. -/
def isWordChar (c : Char) : Bool := c.isAlphanum || c == '_'

/-- Left-to-right maximal-munch extraction of all matches of the regex
`#[A-Za-z0-9_]+`, as `re.findall` performs in `_extract_hashtags_from_text`. -/
def extractRawHashtags : List Char → List String
  | [] => []
  | c :: rest =>
    if c = '#' then
      let body := rest.takeWhile isWordChar
      if body.isEmpty then extractRawHashtags rest
      else ("#" ++ String.mk body) :: extractRawHashtags (rest.dropWhile isWordChar)
    else extractRawHashtags rest
termination_by l => l.length
decreasing_by
  all_goals simp_wf
  all_goals first
    | omega
    | exact Nat.lt_succ_of_le (List.dropWhile_sublist _).length_le

/-- `_extract_hashtags_from_text`: find all `#word` tokens, then remove
case-insensitive duplicates keeping the first occurrence. -/
def extractHashtagsFromText (text : String) : List String :=
  dedupByKey (fun s => lowerString s) (extractRawHashtags text.data) []

/-- Outcome of `json.loads` on the AI response text: decode failure, a JSON
object (fields in insertion order, values arbitrary `JsonValue`s), or a JSON
value that is not an object.  The concrete parser is external; this is its
observable outcome. -/
inductive JsonOutcome where
  | decodeError
  | dict (fields : List (String × JsonValue))
  | nonDict (typeName : String)
deriving Repr, DecidableEq

/-- The markdown stripping at the start of `_parse_ai_hashtag_response`. -/
def preprocessResponse (responseText : String) : String :=
  let t := responseText.trim
  if t.startsWith "```json" then
    (((t.replace "```json" "").replace "```" "").trim)
  else if t.startsWith "```" then
    ((t.replace "```" "").trim)
  else t

/-- `dict.get(key, [])` over the parsed AI response. -/
def getFieldD (fields : List (String × List String)) (key : String) : List String :=
  match fields.find? (fun p => p.1 == key) with
  | some p => p.2
  | none => []

/-- The `for key in data: if isinstance(data[key], list): data[key] =
self._clean_hashtags(data[key])` loop of `_parse_ai_hashtag_response`, field
by field in insertion order.  A list value is cleaned; a list holding a
non-string element makes `_clean_hashtags` raise `AttributeError` at that
element (only `json.JSONDecodeError` is caught, so it propagates); any
non-list value passes through untouched. -/
def parseFields : List (String × JsonValue) → Except String (List (String × ParsedValue))
  | [] => Except.ok []
  | (key, v) :: rest =>
    match v with
    | JsonValue.badList typeName =>
        Except.error ("'" ++ typeName ++ "' object has no attribute 'startswith'")
    | JsonValue.strList items =>
        match parseFields rest with
        | Except.error e => Except.error e
        | Except.ok tail =>
            Except.ok ((key, ParsedValue.strList (cleanHashtags items)) :: tail)
    | JsonValue.str s =>
        match parseFields rest with
        | Except.error e => Except.error e
        | Except.ok tail => Except.ok ((key, ParsedValue.str s) :: tail)
    | JsonValue.obj keys =>
        match parseFields rest with
        | Except.error e => Except.error e
        | Except.ok tail => Except.ok ((key, ParsedValue.obj keys) :: tail)
    | JsonValue.unsized typeName =>
        match parseFields rest with
        | Except.error e => Except.error e
        | Except.ok tail => Except.ok ((key, ParsedValue.unsized typeName) :: tail)

/-- `_parse_ai_hashtag_response`.  On a JSON object every list value is
cleaned via `_clean_hashtags` (raising on a non-string element) and every
non-list value is kept as-is.  On a decode error the fallback extracts
`#word` tokens from the text and buckets them by position
(`[:3]`, `[3:8]`, `[8:12]`, `[12:15]`).  On a JSON value that is not an
object, iterating/indexing it raises (`TypeError`/`IndexError`), which the
embedding carries as `Except.error`. -/
def parseAIHashtagResponse (loads : String → JsonOutcome) (responseText : String) :
    Except String (List (String × ParsedValue)) :=
  let t := preprocessResponse responseText
  match loads t with
  | JsonOutcome.dict fields => parseFields fields
  | JsonOutcome.nonDict typeName =>
      Except.error ("argument of type " ++ typeName ++ " is not iterable")
  | JsonOutcome.decodeError =>
      let hashtags := extractHashtagsFromText t
      Except.ok
        [("trending_hashtags", ParsedValue.strList (hashtags.take 3)),
         ("popular_hashtags", ParsedValue.strList ((hashtags.drop 3).take 5)),
         ("niche_hashtags", ParsedValue.strList ((hashtags.drop 8).take 4)),
         ("branded_hashtags", ParsedValue.strList ((hashtags.drop 12).take 3))]

/-- The four buckets built by `_combine_hashtag_sources`. -/
structure CombinedBuckets where
  trending : List String
  niche : List String
  popular : List String
  branded : List String
deriving Repr, DecidableEq

/-- The backfill loop of `_combine_hashtag_sources`:
`for hashtag in trending_tags[:3]: if hashtag not in combined["popular"]:
combined["popular"].append(hashtag)` — membership is tested against the
growing popular list. -/
def backfillPopular (popular : List String) (tags : List String) : List String :=
  tags.foldl (fun acc h => if h ∈ acc then acc else acc ++ [h]) popular

/-- `_combine_hashtag_sources`: trending bucket is the real trending tag
strings, the other buckets come from the AI response; the popular bucket is
backfilled from the first three trending tags when it has fewer than five
entries. -/
def combineHashtagSources (aiHashtags : List (String × List String))
    (trendingHashtags : List TrendingHashtagData) : CombinedBuckets :=
  let trendingTags := trendingHashtags.map (fun th => th.hashtag)
  let popular0 := getFieldD aiHashtags "popular_hashtags"
  { trending := trendingTags
    niche := getFieldD aiHashtags "niche_hashtags"
    popular :=
      if popular0.length < 5 then backfillPopular popular0 (trendingTags.take 3)
      else popular0
    branded := getFieldD aiHashtags "branded_hashtags" }

/-- `needle in hay` for Python strings: substring containment, over the
character sequences. -/
def hasInfix (needle : List Char) : List Char → Bool
  | [] => needle.isEmpty
  | c :: rest => needle.isPrefixOf (c :: rest) || hasInfix needle rest

/-- The four buckets built by `_combine_hashtag_sources` with raw bucket
values, as the dict actually holds them. -/
structure CombinedBucketsVal where
  trending : List String
  niche : ParsedValue
  popular : ParsedValue
  branded : ParsedValue
deriving Repr, DecidableEq

/-- `dict.get(key, [])` over the parsed AI response with raw values: the
default is a fresh empty list. -/
def getFieldVal (fields : List (String × ParsedValue)) (key : String) : ParsedValue :=
  match fields.find? (fun p => p.1 == key) with
  | some p => p.2
  | none => ParsedValue.strList []

/-- Python `len(value)` on a bucket value: lists, strings and dicts are
sized; a number, boolean or null raises `TypeError`. -/
def pyLen : ParsedValue → Except String Nat
  | ParsedValue.strList items => Except.ok items.length
  | ParsedValue.str s => Except.ok s.length
  | ParsedValue.obj keys => Except.ok keys.length
  | ParsedValue.unsized typeName =>
      Except.error ("object of type '" ++ typeName ++ "' has no len()")

/-- One iteration of the backfill loop of `_combine_hashtag_sources` on a raw
popular value: `if hashtag not in combined["popular"]:
combined["popular"].append(hashtag)`.  Membership is list membership,
substring containment or dict-key membership depending on the value's type;
`append` exists only on lists, so a string or dict raises `AttributeError`
when a tag is absent; `in` on an unsized value raises `TypeError`. -/
def pyBackfillStep (acc : Except String ParsedValue) (tag : String) :
    Except String ParsedValue :=
  match acc with
  | Except.error e => Except.error e
  | Except.ok v =>
    match v with
    | ParsedValue.strList items =>
        if tag ∈ items then Except.ok (ParsedValue.strList items)
        else Except.ok (ParsedValue.strList (items ++ [tag]))
    | ParsedValue.str s =>
        if hasInfix tag.data s.data then Except.ok (ParsedValue.str s)
        else Except.error "'str' object has no attribute 'append'"
    | ParsedValue.obj keys =>
        if tag ∈ keys then Except.ok (ParsedValue.obj keys)
        else Except.error "'dict' object has no attribute 'append'"
    | ParsedValue.unsized typeName =>
        Except.error ("argument of type '" ++ typeName ++ "' is not iterable")

/-- `_combine_hashtag_sources` on the raw parsed dict: the trending bucket is
the real trending tag strings; niche/popular/branded are read with
`.get(key, [])`; when `len(popular) < 5` the first three trending tags are
backfilled through `pyBackfillStep`.  On string-list values this agrees with
`combineHashtagSources` (`combineHashtagSourcesVal_strList`). -/
def combineHashtagSourcesVal (aiHashtags : List (String × ParsedValue))
    (trendingHashtags : List TrendingHashtagData) :
    Except String CombinedBucketsVal :=
  let trendingTags := trendingHashtags.map (fun th => th.hashtag)
  let popular0 := getFieldVal aiHashtags "popular_hashtags"
  match pyLen popular0 with
  | Except.error e => Except.error e
  | Except.ok n =>
    match (if n < 5 then
        (trendingTags.take 3).foldl pyBackfillStep (Except.ok popular0)
      else Except.ok popular0) with
    | Except.error e => Except.error e
    | Except.ok popular =>
      Except.ok
        { trending := trendingTags,
          niche := getFieldVal aiHashtags "niche_hashtags",
          popular := popular,
          branded := getFieldVal aiHashtags "branded_hashtags" }

/-- Python `value[:n]` followed by `final_hashtags.extend(...)`: a list
contributes its first `n` elements, a string contributes its first `n`
characters as one-character strings, a dict raises `TypeError` at the slice,
an unsized value is not subscriptable. -/
def pySlice (v : ParsedValue) (n : Nat) : Except String (List String) :=
  match v with
  | ParsedValue.strList items => Except.ok (items.take n)
  | ParsedValue.str s => Except.ok ((s.data.take n).map (fun c => String.mk [c]))
  | ParsedValue.obj _ => Except.error "unhashable type: 'slice'"
  | ParsedValue.unsized typeName =>
      Except.error ("'" ++ typeName ++ "' object is not subscriptable")

/-- The niche contribution of lines 261-262: sliced only when
`include_niche` is set (so a malformed niche value raises only then). -/
def nicheContribution (request : HashtagRequest) (combined : CombinedBucketsVal) :
    Except String (List String) :=
  if request.includeNiche then pySlice combined.niche 5 else Except.ok []

/-- The branded contribution of lines 268-269, guarded by
`include_branded`. -/
def brandedContribution (request : HashtagRequest) (combined : CombinedBucketsVal) :
    Except String (List String) :=
  if request.includeBranded then pySlice combined.branded 3 else Except.ok []

/-- View of a bucket value as a list of strings, used for the typed
`niche_hashtags`/`branded_hashtags` result fields.  In the source these
fields receive the raw bucket value; in the rare successful runs where that
value is not a list of strings (a string bucket, or a non-list bucket whose
slice was skipped by its flag) this embedding shows the field as empty —
no theorem below reads these two fields on such a bucket. -/
def ParsedValue.asStringList : ParsedValue → List String
  | ParsedValue.strList items => items
  | ParsedValue.str _ => []
  | ParsedValue.obj _ => []
  | ParsedValue.unsized _ => []

/-- The bucket-priority concatenation built in `generate_enhanced_hashtags`:
trending (take 5, when requested), niche (take 5, when requested), popular
(take 5), branded (take 3, when requested). -/
def assembledCandidates (combined : CombinedBuckets) (request : HashtagRequest) :
    List String :=
  (if request.includeTrending then combined.trending.take 5 else [])
    ++ (if request.includeNiche then combined.niche.take 5 else [])
    ++ combined.popular.take 5
    ++ (if request.includeBranded then combined.branded.take 3 else [])

/-- Final list construction of `generate_enhanced_hashtags`: assemble by
bucket priority, deduplicate case-insensitively keeping first occurrences,
truncate to `max_hashtags`. -/
def assembleFinalHashtags (combined : CombinedBuckets) (request : HashtagRequest) :
    List String :=
  (dedupCaseInsensitive (assembledCandidates combined request)).take request.maxHashtags

/-- The effective per-record score used by `_calculate_trending_score`:
`th.engagement_score or 500` replaces a missing or zero score by 500. -/
def effectiveEngagementScore (score : Option Int) : ℚ :=
  match score with
  | none => 500
  | some n => if n = 0 then 500 else (n : ℚ)

/-- `_calculate_trending_score`: 3.0 on no data, otherwise the mean of the
effective scores mapped by `avg / 1000 * 10` and clamped via
`min(10.0, max(1.0, score))`. -/
def calculateTrendingScore (trendingData : List TrendingHashtagData) : ℚ :=
  if trendingData.isEmpty then 3
  else
    let scores := trendingData.map (fun th => effectiveEngagementScore th.engagementScore)
    let avg := scores.sum / (scores.length : ℚ)
    min 10 (max 1 (avg / 1000 * 10))

/-- `_calculate_engagement_potential`: base 5.0, +0.5 per final tag matching
the trending pool case-insensitively, +1.0 when the count is at least 8,
+0.5 when it is in [10, 15], −1.0 when below 5, else −0.5 when above 25;
clamped via `min(10.0, max(1.0, score))`. -/
def calculateEngagementPotential (hashtags : List String)
    (trendingData : List TrendingHashtagData) : ℚ :=
  let trendingSet := trendingData.map (fun th => lowerString th.hashtag)
  let matchCount := (hashtags.filter (fun h => trendingSet.contains (lowerString h))).length
  let s1 : ℚ := 5 + (matchCount : ℚ) * (1 / 2)
  let s2 := if 8 ≤ hashtags.length then s1 + 1 else s1
  let s3 := if 10 ≤ hashtags.length ∧ hashtags.length ≤ 15 then s2 + 1 / 2 else s2
  let s4 :=
    if hashtags.length < 5 then s3 - 1
    else if 25 < hashtags.length then s3 - 1 / 2
    else s3
  min 10 (max 1 s4)

/-- Environment of one `generate_enhanced_hashtags` call: outcomes of the
collaborator calls.  `trendingCall` is `trending_fetcher.get_trending_hashtags`
(category, platform, max\x5fcount), `descriptionCall` and `aiCall` are the two
`ai_analyzer.analyze_image` invocations, `loads` the JSON decoding of the AI
content.  `Except.error` marks a call that raises. -/
structure GenEnv where
  trendingCall : String → String → Nat → Except String TrendingResult
  descriptionCall : Except String AnalyzeResult
  aiCall : Except String AnalyzeResult
  loads : String → JsonOutcome

/-- Category selection at the top of `generate_enhanced_hashtags`: the
primary category when a classification with a non-empty primary is present,
else `"general"`. -/
def requestCategory (request : HashtagRequest) : String :=
  match request.categoryResult with
  | none => "general"
  | some cr => if cr.primaryCategory = "" then "general" else cr.primaryCategory

/-- `_get_real_trending_hashtags`: returns the fetched hashtags on success
and `[]` on a failed result or a raised exception. -/
def getRealTrendingHashtags (env : GenEnv) (category platform : String)
    (maxCount : Nat) : List TrendingHashtagData :=
  match env.trendingCall category platform maxCount with
  | Except.error _ => []
  | Except.ok r => if r.success then r.hashtags else []

/-- The body of `generate_enhanced_hashtags` inside its `try` block; a raised
exception is an `Except.error`.  Raises occur in source order: the parse, then
`len`/`append` inside `_combine_hashtag_sources`, then the `[:5]`/`[:3]`
slices of the niche, popular and branded buckets (the flag-guarded ones only
when their flag is set).  The three slice contributions are each at most as
long as their slice bound and empty when their flag is off, so feeding them
back through `assembleFinalHashtags` (which re-applies the flags and bounds)
builds exactly the `final_hashtags` list of lines 254-280.  In the source
`niche_hashtags`/`branded_hashtags` receive the raw bucket value and
`ai_generated_hashtags` is `list(ai_hashtags.values())` after the backfill
mutated its popular list in place; the mutation is modelled by substituting
the combined popular value at the `"popular_hashtags"` key. -/
def generateEnhancedHashtagsBody (env : GenEnv) (request : HashtagRequest) :
    Except String EnhancedHashtagResult :=
  let category := requestCategory request
  let realTrendingHashtags := getRealTrendingHashtags env category request.platform 8
  match env.descriptionCall with
  | Except.error e => Except.error e
  | Except.ok _ =>
    match env.aiCall with
    | Except.error e => Except.error e
    | Except.ok result =>
      if result.success = false then
        Except.ok
          { hashtags := [], trendingHashtags := [], nicheHashtags := [],
            brandedHashtags := [], aiGeneratedHashtags := [],
            realTrendingHashtags := realTrendingHashtags,
            platform := request.platform, totalCount := 0,
            success := false,
            error := some (result.error.getD "Unknown error occurred") }
      else
        match parseAIHashtagResponse env.loads result.content with
        | Except.error e => Except.error e
        | Except.ok aiHashtags =>
          match combineHashtagSourcesVal aiHashtags realTrendingHashtags with
          | Except.error e => Except.error e
          | Except.ok combined =>
          match nicheContribution request combined with
          | Except.error e => Except.error e
          | Except.ok nicheTags =>
          match pySlice combined.popular 5 with
          | Except.error e => Except.error e
          | Except.ok popularTags =>
          match brandedContribution request combined with
          | Except.error e => Except.error e
          | Except.ok brandedTags =>
          let finalHashtags :=
            assembleFinalHashtags
              { trending := combined.trending, niche := nicheTags,
                popular := popularTags, branded := brandedTags } request
          Except.ok
            { hashtags := finalHashtags,
              trendingHashtags := combined.trending,
              nicheHashtags := combined.niche.asStringList,
              brandedHashtags := combined.branded.asStringList,
              aiGeneratedHashtags :=
                aiHashtags.map (fun p =>
                  if p.1 == "popular_hashtags" then combined.popular else p.2),
              realTrendingHashtags := realTrendingHashtags,
              platform := request.platform,
              totalCount := finalHashtags.length,
              engagementPotential :=
                some (calculateEngagementPotential finalHashtags realTrendingHashtags),
              trendingScore := some (calculateTrendingScore realTrendingHashtags),
              success := true, error := none }

/-- The result built by the `except` clause of `generate_enhanced_hashtags`. -/
def exceptionResult (request : HashtagRequest) (e : String) : EnhancedHashtagResult :=
  { hashtags := [], trendingHashtags := [], nicheHashtags := [],
    brandedHashtags := [], aiGeneratedHashtags := [], realTrendingHashtags := [],
    platform := request.platform, totalCount := 0,
    success := false, error := some e }

/-- `generate_enhanced_hashtags`: run the body and absorb any raised
exception into a failed result. -/
def generateEnhancedHashtags (env : GenEnv) (request : HashtagRequest) :
    EnhancedHashtagResult :=
  match generateEnhancedHashtagsBody env request with
  | Except.ok r => r
  | Except.error e => exceptionResult request e

/-- One cached payload: the `{"hashtags": ..., "category": ..., "platform": ...}`
dict stored by the fetch methods. -/
structure CacheData where
  hashtags : List TrendingHashtagData
  category : String
  platform : String
deriving Repr, DecidableEq

/-- One cache slot: payload plus the `time.time()` at which it was saved. -/
structure CacheEntry where
  data : CacheData
  timestamp : ℚ
deriving Repr, DecidableEq

/-- Mutable state of one `TrendingHashtagFetcher` instance: `self.cache`
(dict, modelled as an association list with leftmost binding current) and
`self.blocked_sources` (set, modelled as a list). -/
structure FetcherState where
  cache : List (String × CacheEntry)
  blockedSources : List String
deriving Repr, DecidableEq

/-- `self.cache_duration = 3600` seconds. -/
def cacheDuration : ℚ := 3600

/-- Dictionary lookup in the cache. -/
def lookupCache (cache : List (String × CacheEntry)) (key : String) : Option CacheEntry :=
  (cache.find? (fun p => p.1 == key)).map (fun p => p.2)

/-- `_is_cache_valid`: the key is present and its age is strictly below the
TTL. -/
def isCacheValid (state : FetcherState) (now : ℚ) (cacheKey : String) : Prop :=
  match lookupCache state.cache cacheKey with
  | none => False
  | some entry => now - entry.timestamp < cacheDuration

instance (state : FetcherState) (now : ℚ) (cacheKey : String) :
    Decidable (isCacheValid state now cacheKey) := by
  unfold isCacheValid
  cases lookupCache state.cache cacheKey with
  | none => exact inferInstanceAs (Decidable False)
  | some entry => exact inferInstanceAs (Decidable (_ < _))

/-- `_get_from_cache`: the stored payload when the entry is valid, otherwise
nothing; no eviction is performed. -/
def getFromCache (state : FetcherState) (now : ℚ) (cacheKey : String) : Option CacheData :=
  match lookupCache state.cache cacheKey with
  | none => none
  | some entry =>
    if now - entry.timestamp < cacheDuration then some entry.data else none

/-- `_save_to_cache`: unconditional overwrite of the key with the payload and
the current time. -/
def saveToCache (state : FetcherState) (now : ℚ) (cacheKey : String)
    (data : CacheData) : FetcherState :=
  { state with
    cache := (cacheKey, { data := data, timestamp := now })
      :: state.cache.filter (fun p => !(p.1 == cacheKey)) }

/-- The static curated table of `_get_category_trending_hashtags`, keyed by
category and platform. -/
def curatedTable : String → String → List String
  | "food", "instagram" =>
      ["#foodie2025", "#healthyrecipes", "#plantbasedmeals", "#foodphotography",
       "#homecooking"]
  | "food", "facebook" =>
      ["#familymeals", "#cookingathome", "#healthyliving", "#foodblog"]
  | "travel", "instagram" =>
      ["#wanderlust2025", "#solotravel", "#sustainabletravel", "#hiddenplaces",
       "#localcuisine"]
  | "travel", "facebook" =>
      ["#familytravel", "#roadtrip", "#vacation2025", "#traveltips"]
  | "fashion", "instagram" =>
      ["#ootd2025", "#sustainablefashion", "#vintagestyle", "#thriftfinds",
       "#styleinspo"]
  | "fashion", "facebook" =>
      ["#fashionadvice", "#styletrends", "#outfitideas", "#fashion2025"]
  | "fitness", "instagram" =>
      ["#fitnessjourney", "#homeworkout", "#mentalhealthfitness", "#strongwomen",
       "#fitnessmotivation"]
  | "fitness", "facebook" =>
      ["#healthylifestyle", "#workoutmotivation", "#wellness", "#fitnessgoals"]
  | "business", "instagram" =>
      ["#entrepreneur2025", "#businessowner", "#digitalnomad", "#hustle",
       "#mindset"]
  | "business", "facebook" =>
      ["#smallbusiness", "#entrepreneurship", "#businesstips", "#success"]
  | "events", "instagram" =>
      ["#celebration2025", "#festivalstoday", "#culturalheritage",
       "#traditionalmeets", "#festivalvibes", "#spiritualjourney",
       "#communitylove", "#heritagepride", "#festivemood", "#sacredmoments"]
  | "events", "facebook" =>
      ["#familyfestival", "#culturalevent", "#traditioncelebration",
       "#spiritualgathering", "#festivalmemories"]
  | "lifestyle", "instagram" =>
      ["#mindfuliving", "#dailyinspo", "#gratitudepractice", "#selfcaresunday",
       "#positivevibes"]
  | "lifestyle", "facebook" =>
      ["#lifelessons", "#inspiration", "#motivation", "#wellbeing", "#mindfulness"]
  | "art", "instagram" =>
      ["#artistsoninstagram", "#creativeminds", "#artoftheday", "#digitalart2025",
       "#arttherapy"]
  | "art", "facebook" =>
      ["#localartists", "#artcommunity", "#creativeexpression", "#artlovers",
       "#inspiration"]
  | _, _ => []

/-- The categories that appear as keys of the curated table. -/
def curatedCategories : List String :=
  ["food", "travel", "fashion", "fitness", "business", "events", "lifestyle", "art"]

/-- `_get_category_trending_hashtags`: the curated tag strings for the
category/platform with position-decay synthetic scores
(`800 - i*50`, `0.12 - i*0.015`).  `nowStr` is the `time.strftime` stamp. -/
def getCategoryTrendingHashtags (category platform nowStr : String) :
    List TrendingHashtagData :=
  (curatedTable category platform).enum.map (fun p =>
    { hashtag := p.2, platform := platform,
      engagementScore := some (800 - 50 * (p.1 : Int)),
      growthRate := some ((12 / 100 : ℚ) - (15 / 1000) * p.1),
      category := some category, lastUpdated := some nowStr })

/-- `_get_simulated_trending_data`: the curated records, with each truthy
score multiplied by 1.2 (exact here: all table scores are multiples of 5)
and `"RT"` appended to each tag when the source is `"ritetag"`. -/
def getSimulatedTrendingData (category platform source nowStr : String) :
    List TrendingHashtagData :=
  let base := getCategoryTrendingHashtags category platform nowStr
  if source = "ritetag" then
    base.map (fun h =>
      { h with
        engagementScore :=
          match h.engagementScore with
          | none => none
          | some n => if n = 0 then some 0 else some (12 * n / 10)
        hashtag := h.hashtag ++ "RT" })
  else base

/-- The sort key of `_remove_duplicate_hashtags`:
`x.engagement_score or 0`. -/
def engagementKey (h : TrendingHashtagData) : Int := h.engagementScore.getD 0

/-- Stable descending insertion: the new element goes after every element
with a key at least as large, as Python's stable `sorted(key, reverse=True)`
orders elements. -/
def insertDescBy (key : TrendingHashtagData → Int) (x : TrendingHashtagData) :
    List TrendingHashtagData → List TrendingHashtagData
  | [] => [x]
  | y :: ys => if key x ≤ key y then y :: insertDescBy key x ys else x :: y :: ys

/-- Stable descending sort by key, modelling
`sorted(hashtags, key=lambda x: x.engagement_score or 0, reverse=True)`. -/
def sortDescBy (key : TrendingHashtagData → Int) (l : List TrendingHashtagData) :
    List TrendingHashtagData :=
  l.foldl (fun acc x => insertDescBy key x acc) []

/-- `_remove_duplicate_hashtags`: sort descending by engagement score, then
keep the first record per lowercased tag. -/
def removeDuplicateHashtags (hashtags : List TrendingHashtagData) :
    List TrendingHashtagData :=
  dedupByKey (fun h => lowerString h.hashtag) (sortDescBy engagementKey hashtags) []

/-- `fetch_trending_from_hashtagify`: cache hit returns the stored list with
source `"hashtagify_cache"`; otherwise simulated data is produced, cached and
returned with source `"hashtagify_simulated"`. -/
def fetchTrendingFromHashtagify (state : FetcherState) (now : ℚ)
    (nowStr category platform : String) : TrendingResult × FetcherState :=
  let cacheKey := "hashtagify_" ++ category ++ "_" ++ platform
  match getFromCache state now cacheKey with
  | some d =>
    ({ hashtags := d.hashtags, source := "hashtagify_cache", category := category,
       platform := platform, success := true }, state)
  | none =>
    let trendingHashtags := getSimulatedTrendingData category platform "general" nowStr
    let newState := saveToCache state now cacheKey
      { hashtags := trendingHashtags, category := category, platform := platform }
    ({ hashtags := trendingHashtags, source := "hashtagify_simulated",
       category := category, platform := platform, success := true }, newState)

/-- `fetch_trending_from_ritetag`: same shape as the hashtagify provider with
its own cache key and the `"ritetag"` simulated source. -/
def fetchTrendingFromRitetag (state : FetcherState) (now : ℚ)
    (nowStr category platform : String) : TrendingResult × FetcherState :=
  let cacheKey := "ritetag_" ++ category ++ "_" ++ platform
  match getFromCache state now cacheKey with
  | some d =>
    ({ hashtags := d.hashtags, source := "ritetag_cache", category := category,
       platform := platform, success := true }, state)
  | none =>
    let trendingHashtags := getSimulatedTrendingData category platform "ritetag" nowStr
    let newState := saveToCache state now cacheKey
      { hashtags := trendingHashtags, category := category, platform := platform }
    ({ hashtags := trendingHashtags, source := "ritetag_simulated",
       category := category, platform := platform, success := true }, newState)

/-- Outcome of one HTTP scrape of one host: the stripped texts of the
selected elements, an HTTP status error, a transport error, or any other
raised error — all caught inside the scrape helpers. -/
inductive NetResponse where
  | ok (texts : List String)
  | httpError (status : Nat)
  | requestError
  | otherError
deriving Repr, DecidableEq

def topHashtagsHost : String := "top-hashtags.com"

def allHashtagHost : String := "all-hashtag.com"

def forLikesHost : String := "hashtagsforlikes.co"

/-- Result of one scrape helper: the extracted records, the updated fetcher
state, and the hosts to which a network request was actually issued. -/
structure ScrapeStep where
  hashtags : List TrendingHashtagData
  blockedSources : List String
  requestedHosts : List String
deriving Repr, DecidableEq

/-- `_scrape_instagram_trends`: skip entirely when the host is blocklisted;
otherwise issue the request, keep the first 20 selected texts that start with
`#` with position-decay scores (`1000 - i*50`, `0.15 - i*0.005`); a 403
response adds the host to the blocklist; every error path returns the
records collected so far (none).  The method reads and writes only
`self.blocked_sources`, threaded here explicitly. -/
def scrapeInstagramTrends (blocked : List String) (category nowStr : String)
    (response : NetResponse) : ScrapeStep :=
  if topHashtagsHost ∈ blocked then
    { hashtags := [], blockedSources := blocked, requestedHosts := [] }
  else
    match response with
    | NetResponse.ok texts =>
      { hashtags := (texts.take 20).enum.filterMap (fun p =>
          if startsWithHash p.2 then
            some { hashtag := p.2, platform := "instagram",
                   engagementScore := some (1000 - 50 * (p.1 : Int)),
                   growthRate := some ((15 / 100 : ℚ) - (5 / 1000) * p.1),
                   category := some category, lastUpdated := some nowStr }
          else none),
        blockedSources := blocked, requestedHosts := [topHashtagsHost] }
    | NetResponse.httpError status =>
      if status = 403 then
        { hashtags := [], blockedSources := topHashtagsHost :: blocked,
          requestedHosts := [topHashtagsHost] }
      else
        { hashtags := [], blockedSources := blocked,
          requestedHosts := [topHashtagsHost] }
    | NetResponse.requestError =>
      { hashtags := [], blockedSources := blocked,
        requestedHosts := [topHashtagsHost] }
    | NetResponse.otherError =>
      { hashtags := [], blockedSources := blocked,
        requestedHosts := [topHashtagsHost] }

/-- The `all-hashtag.com` block of `_scrape_trend_websites`: skip when the
host is blocklisted; otherwise the first 15 texts (with `#` prepended when
missing, scores `900 - i*50`); a 403 response blocklists the host. -/
def scrapeAllHashtagStep (blocked : List String) (category platform nowStr : String)
    (response : NetResponse) : ScrapeStep :=
  if allHashtagHost ∈ blocked then
    { hashtags := [], blockedSources := blocked, requestedHosts := [] }
  else
    match response with
    | NetResponse.ok texts =>
      { hashtags := (texts.take 15).enum.map (fun p =>
          { hashtag := if startsWithHash p.2 then p.2 else "#" ++ p.2,
            platform := platform,
            engagementScore := some (900 - 50 * (p.1 : Int)),
            growthRate := some ((12 / 100 : ℚ) - (5 / 1000) * p.1),
            category := some category, lastUpdated := some nowStr }),
        blockedSources := blocked, requestedHosts := [allHashtagHost] }
    | NetResponse.httpError status =>
      if status = 403 then
        { hashtags := [], blockedSources := allHashtagHost :: blocked,
          requestedHosts := [allHashtagHost] }
      else
        { hashtags := [], blockedSources := blocked,
          requestedHosts := [allHashtagHost] }
    | NetResponse.requestError =>
      { hashtags := [], blockedSources := blocked,
        requestedHosts := [allHashtagHost] }
    | NetResponse.otherError =>
      { hashtags := [], blockedSources := blocked,
        requestedHosts := [allHashtagHost] }

/-- The `hashtagsforlikes.co` backup block of `_scrape_trend_websites` (its
guard — fewer than 5 records so far and host not blocklisted — sits in the
caller): the first 10 texts with scores `800 - i*50`; a 403 response
blocklists the host. -/
def scrapeForLikesStep (blocked : List String) (category platform nowStr : String)
    (response : NetResponse) : ScrapeStep :=
  match response with
  | NetResponse.ok texts =>
    { hashtags := (texts.take 10).enum.map (fun p =>
        { hashtag := if startsWithHash p.2 then p.2 else "#" ++ p.2,
          platform := platform,
          engagementScore := some (800 - 50 * (p.1 : Int)),
          growthRate := some ((10 / 100 : ℚ) - (5 / 1000) * p.1),
          category := some category, lastUpdated := some nowStr }),
      blockedSources := blocked, requestedHosts := [forLikesHost] }
  | NetResponse.httpError status =>
    if status = 403 then
      { hashtags := [], blockedSources := forLikesHost :: blocked,
        requestedHosts := [forLikesHost] }
    else
      { hashtags := [], blockedSources := blocked,
        requestedHosts := [forLikesHost] }
  | NetResponse.requestError =>
    { hashtags := [], blockedSources := blocked, requestedHosts := [forLikesHost] }
  | NetResponse.otherError =>
    { hashtags := [], blockedSources := blocked, requestedHosts := [forLikesHost] }

/-- `_scrape_trend_websites`: try `all-hashtag.com` unless blocklisted; if
fewer than 5 records so far, try `hashtagsforlikes.co` unless blocklisted;
if still fewer than 5 records, supplement from the curated table. -/
def scrapeTrendWebsites (blocked : List String) (category platform nowStr : String)
    (allHashtagResponse forLikesResponse : NetResponse) : ScrapeStep :=
  let step1 := scrapeAllHashtagStep blocked category platform nowStr allHashtagResponse
  let step2 : ScrapeStep :=
    if step1.hashtags.length < 5 ∧ forLikesHost ∉ step1.blockedSources then
      scrapeForLikesStep step1.blockedSources category platform nowStr forLikesResponse
    else
      { hashtags := [], blockedSources := step1.blockedSources, requestedHosts := [] }
  let collected := step1.hashtags ++ step2.hashtags
  { hashtags :=
      if collected.length < 5 then
        collected ++ getCategoryTrendingHashtags category platform nowStr
      else collected,
    blockedSources := step2.blockedSources,
    requestedHosts := step1.requestedHosts ++ step2.requestedHosts }

/-- Result of one provider fetch together with the issued network requests. -/
structure FetchStep where
  result : TrendingResult
  state : FetcherState
  requestedHosts : List String
deriving Repr

/-- Cache key of the web-scraping provider. -/
def webScrapeCacheKey (category platform : String) : String :=
  "webscrape_" ++ category ++ "_" ++ platform

/-- `fetch_trending_from_web_scraping`: cache hit short-circuits; otherwise
the Instagram scrape (for the instagram platform) and the trend-website
scrape run, simulated data substitutes for an empty yield, duplicates are
removed, the first 20 records are cached and returned with success. -/
def fetchTrendingFromWebScraping (state : FetcherState) (now : ℚ)
    (nowStr category platform : String)
    (igResponse allHashtagResponse forLikesResponse : NetResponse) : FetchStep :=
  let cacheKey := webScrapeCacheKey category platform
  match getFromCache state now cacheKey with
  | some d =>
    { result := { hashtags := d.hashtags, source := "webscrape_cache",
                  category := category, platform := platform, success := true },
      state := state, requestedHosts := [] }
  | none =>
    let igStep :=
      if platform = "instagram" then
        scrapeInstagramTrends state.blockedSources category nowStr igResponse
      else
        { hashtags := [], blockedSources := state.blockedSources,
          requestedHosts := [] }
    let webStep := scrapeTrendWebsites igStep.blockedSources category platform nowStr
      allHashtagResponse forLikesResponse
    let scraped := igStep.hashtags ++ webStep.hashtags
    let trendingHashtags :=
      if scraped.isEmpty then
        getSimulatedTrendingData category platform "webscrape_fallback" nowStr
      else scraped
    let uniqueHashtags := removeDuplicateHashtags trendingHashtags
    let limited := uniqueHashtags.take 20
    let newState := saveToCache
      { state with blockedSources := webStep.blockedSources } now cacheKey
      { hashtags := limited, category := category, platform := platform }
    { result := { hashtags := limited, source := "web_scraping_with_fallback",
                  category := category, platform := platform, success := true },
      state := newState,
      requestedHosts := igStep.requestedHosts ++ webStep.requestedHosts }

/-- `get_trending_hashtags`: call the three providers in order, pool every
successful non-empty outcome, fail only when the pool is empty, otherwise
deduplicate and truncate to `max_count`. -/
def getTrendingHashtags (state : FetcherState) (now : ℚ)
    (nowStr category platform : String) (maxCount : Nat)
    (igResponse allHashtagResponse forLikesResponse : NetResponse) :
    TrendingResult × FetcherState :=
  let ws := fetchTrendingFromWebScraping state now nowStr category platform
    igResponse allHashtagResponse forLikesResponse
  let pool1 :=
    if ws.result.success ∧ ¬ws.result.hashtags.isEmpty then ws.result.hashtags else []
  let hr := fetchTrendingFromHashtagify ws.state now nowStr category platform
  let pool2 := pool1 ++
    (if hr.1.success ∧ ¬hr.1.hashtags.isEmpty then hr.1.hashtags else [])
  let rr := fetchTrendingFromRitetag hr.2 now nowStr category platform
  let allHashtags := pool2 ++
    (if rr.1.success ∧ ¬rr.1.hashtags.isEmpty then rr.1.hashtags else [])
  if allHashtags.isEmpty then
    ({ hashtags := [], source := "web_scraping,hashtagify,ritetag",
       category := category, platform := platform, success := false,
       error := some "No trending hashtags found from any source" }, rr.2)
  else
    ({ hashtags := (removeDuplicateHashtags allHashtags).take maxCount,
       source := "web_scraping,hashtagify,ritetag", category := category,
       platform := platform, success := true }, rr.2)

/-- Inputs of one `fetch_trending_from_web_scraping` call in a call trace. -/
structure WebScrapeCall where
  now : ℚ
  nowStr : String
  category : String
  platform : String
  igResponse : NetResponse
  allHashtagResponse : NetResponse
  forLikesResponse : NetResponse
deriving Repr

/-- One trace step of the web-scraping provider. -/
def webScrapeStep (state : FetcherState) (c : WebScrapeCall) : FetchStep :=
  fetchTrendingFromWebScraping state c.now c.nowStr c.category c.platform
    c.igResponse c.allHashtagResponse c.forLikesResponse

/-- Fold a sequence of web-scraping calls through the fetcher state. -/
def runWebScrapeCalls (state : FetcherState) : List WebScrapeCall → FetcherState
  | [] => state
  | c :: cs => runWebScrapeCalls (webScrapeStep state c).state cs

/-- Fetcher state before the `i`-th call of a trace. -/
def stateBefore (init : FetcherState) (calls : List WebScrapeCall) (i : Nat) :
    FetcherState :=
  runWebScrapeCalls init (calls.take i)

/-- The oracle response a given host would have answered during a call. -/
def hostResponse (c : WebScrapeCall) (host : String) : NetResponse :=
  if host = topHashtagsHost then c.igResponse
  else if host = allHashtagHost then c.allHashtagResponse
  else c.forLikesResponse

/-- The host was actually contacted during the call and answered 403. -/
def got403 (state : FetcherState) (c : WebScrapeCall) (host : String) : Prop :=
  host ∈ (webScrapeStep state c).requestedHosts ∧
    hostResponse c host = NetResponse.httpError 403

/-! ### Lemmas about first-seen deduplication -/

theorem dedupByKey_sublist (key : α → String) :
    ∀ (l : List α) (seen : List String), List.Sublist (dedupByKey key l seen) l := by
  intro l
  induction l with
  | nil => intro seen; simp [dedupByKey]
  | cons x xs ih =>
    intro seen
    rw [dedupByKey]
    by_cases h : key x ∈ seen
    · simp only [if_pos h]
      exact (ih seen).cons x
    · simp only [if_neg h]
      exact (ih (key x :: seen)).cons₂ x

theorem mem_of_mem_dedupByKey {key : α → String} {l : List α} {seen : List String}
    {y : α} (hy : y ∈ dedupByKey key l seen) : y ∈ l :=
  (dedupByKey_sublist key l seen).mem hy

theorem key_not_mem_seen_of_mem_dedupByKey (key : α → String) :
    ∀ (l : List α) (seen : List String) (y : α),
      y ∈ dedupByKey key l seen → key y ∉ seen := by
  intro l
  induction l with
  | nil => intro seen y hy; simp [dedupByKey] at hy
  | cons x xs ih =>
    intro seen y hy
    rw [dedupByKey] at hy
    by_cases h : key x ∈ seen
    · rw [if_pos h] at hy
      exact ih seen y hy
    · rw [if_neg h] at hy
      rcases List.mem_cons.mp hy with rfl | hy'
      · exact h
      · intro hmem
        exact ih (key x :: seen) y hy' (List.mem_cons_of_mem _ hmem)

theorem dedupByKey_pairwise (key : α → String) :
    ∀ (l : List α) (seen : List String),
      List.Pairwise (fun a b => key a ≠ key b) (dedupByKey key l seen) := by
  intro l
  induction l with
  | nil => intro seen; simp [dedupByKey]
  | cons x xs ih =>
    intro seen
    rw [dedupByKey]
    by_cases h : key x ∈ seen
    · rw [if_pos h]; exact ih seen
    · rw [if_neg h]
      refine List.Pairwise.cons ?_ (ih (key x :: seen))
      intro b hb hkey
      have := key_not_mem_seen_of_mem_dedupByKey key xs (key x :: seen) b hb
      exact this (hkey ▸ List.mem_cons_self _ _)

theorem dedupByKey_coverage (key : α → String) :
    ∀ (l : List α) (seen : List String) (x : α),
      x ∈ l → key x ∉ seen →
      ∃ y ∈ dedupByKey key l seen, key y = key x := by
  intro l
  induction l with
  | nil => intro seen x hx; simp at hx
  | cons a as ih =>
    intro seen x hx hseen
    rw [dedupByKey]
    by_cases h : key a ∈ seen
    · rw [if_pos h]
      rcases List.mem_cons.mp hx with rfl | hx'
      · exact absurd h hseen
      · exact ih seen x hx' hseen
    · rw [if_neg h]
      by_cases hk : key x = key a
      · exact ⟨a, List.mem_cons_self _ _, hk.symm⟩
      · rcases List.mem_cons.mp hx with rfl | hx'
        · exact absurd rfl hk
        · obtain ⟨y, hy, hkey⟩ := ih (key a :: seen) x hx'
            (by simp [hseen, hk])
          exact ⟨y, List.mem_cons_of_mem _ hy, hkey⟩

theorem dedupByKey_find? (key : α → String) :
    ∀ (l : List α) (seen : List String) (y : α),
      y ∈ dedupByKey key l seen →
      l.find? (fun z => key z == key y) = some y := by
  intro l
  induction l with
  | nil => intro seen y hy; simp [dedupByKey] at hy
  | cons a as ih =>
    intro seen y hy
    rw [dedupByKey] at hy
    by_cases h : key a ∈ seen
    · rw [if_pos h] at hy
      have hne : key a ≠ key y := by
        intro he
        exact key_not_mem_seen_of_mem_dedupByKey key as seen y hy (he ▸ h)
      rw [List.find?_cons_of_neg _ (by simpa using hne)]
      exact ih seen y hy
    · rw [if_neg h] at hy
      rcases List.mem_cons.mp hy with rfl | hy'
      · rw [List.find?_cons_of_pos _ (by simp)]
      · have hne : key a ≠ key y := by
          intro he
          exact key_not_mem_seen_of_mem_dedupByKey key as (key a :: seen) y hy'
            (he ▸ List.mem_cons_self _ _)
        rw [List.find?_cons_of_neg _ (by simpa using hne)]
        exact ih (key a :: seen) y hy'

/-! ### C1: final list assembly, deduplication and truncation -/

/-- Claim C1: `generate_enhanced_hashtags` builds the final list by bucket
priority (trending then niche then popular then branded, with the per-bucket
caps and toggles), removes case-insensitive duplicates keeping the
first-seen entry with its original casing, and truncates to `max_hashtags`,
so the final list is at most `max_hashtags` long and holds no two entries
equal up to case. -/
theorem finalHashtags_bucket_order_dedup_truncate
    (combined : CombinedBuckets) (request : HashtagRequest) :
    assembleFinalHashtags combined request =
        (dedupCaseInsensitive (assembledCandidates combined request)).take
          request.maxHashtags
      ∧ (assembleFinalHashtags combined request).length ≤ request.maxHashtags
      ∧ List.Pairwise (fun a b => lowerString a ≠ lowerString b)
          (assembleFinalHashtags combined request)
      ∧ List.Sublist (dedupCaseInsensitive (assembledCandidates combined request))
          (assembledCandidates combined request)
      ∧ (∀ x ∈ assembledCandidates combined request,
          ∃ y ∈ dedupCaseInsensitive (assembledCandidates combined request),
            lowerString y = lowerString x)
      ∧ (∀ y ∈ dedupCaseInsensitive (assembledCandidates combined request),
          (assembledCandidates combined request).find?
            (fun z => lowerString z == lowerString y) = some y) := by
  have hd : dedupCaseInsensitive (assembledCandidates combined request) =
      dedupByKey (fun s : String => lowerString s)
        (assembledCandidates combined request) [] := rfl
  refine ⟨rfl, ?_, ?_, ?_, ?_, ?_⟩
  · rw [assembleFinalHashtags]
    simp [Nat.min_le_left]
  · rw [assembleFinalHashtags, hd]
    exact ((dedupByKey_pairwise (fun s : String => lowerString s) _ []).sublist
      (List.take_sublist _ _))
  · rw [hd]
    exact dedupByKey_sublist _ _ _
  · intro x hx
    rw [hd]
    exact dedupByKey_coverage (fun s : String => lowerString s) _ [] x hx (by simp)
  · intro y hy
    rw [hd] at hy
    exact dedupByKey_find? (fun s : String => lowerString s) _ [] y hy

/-- Witness for C1 at a concrete input: buckets containing the
case-insensitive duplicates `#Food` and `#food`; the first-seen spelling
`#Food` is the representative. -/
theorem finalHashtags_bucket_order_dedup_truncate_witness :
    (assembledCandidates
          { trending := ["#Food"], niche := [], popular := ["#food", "#Cat"],
            branded := [] } { imagePath := "img.jpg" }).find?
        (fun z => lowerString z == lowerString "#Food") = some "#Food"
      ∧ ∃ y ∈ dedupCaseInsensitive (assembledCandidates
          { trending := ["#Food"], niche := [], popular := ["#food", "#Cat"],
            branded := [] } { imagePath := "img.jpg" }),
          lowerString y = lowerString "#food" := by
  have h := finalHashtags_bucket_order_dedup_truncate
    { trending := ["#Food"], niche := [], popular := ["#food", "#Cat"],
      branded := [] } { imagePath := "img.jpg" }
  exact ⟨h.2.2.2.2.2 "#Food" (by decide), h.2.2.2.2.1 "#food" (by decide)⟩

/-! ### C6: tag normalization -/

theorem cleanOneHashtag_data (h : String) :
    ∃ rest, (cleanOneHashtag h).data = '#' :: rest
      ∧ ∀ c ∈ rest, isHashtagChar c = true := by
  rw [cleanOneHashtag]
  by_cases hsw : startsWithHash h = true
  · rw [if_pos hsw]
    rw [startsWithHash] at hsw
    cases hd : h.data with
    | nil => rw [hd] at hsw; simp at hsw
    | cons c cs =>
      rw [hd] at hsw
      simp only at hsw
      have hc : c = '#' := by simpa using hsw
      subst hc
      refine ⟨cs.filter isHashtagChar, ?_, ?_⟩
      · show List.filter isHashtagChar ('#' :: cs) = '#' :: cs.filter isHashtagChar
        simp [List.filter_cons, isHashtagChar]
      · intro a ha
        exact (List.mem_filter.mp ha).2
  · rw [if_neg hsw]
    refine ⟨h.data.filter isHashtagChar, ?_, ?_⟩
    · show List.filter isHashtagChar (("#" ++ h).data)
          = '#' :: h.data.filter isHashtagChar
      rw [String.data_append]
      show List.filter isHashtagChar ('#' :: h.data) = _
      simp [List.filter_cons, isHashtagChar]
    · intro a ha
      exact (List.mem_filter.mp ha).2

/-- Claim C6, amended: the tags produced by `_clean_hashtags` (applied to the
AI-suggested bucket lists parsed from a JSON object) start with `#`, contain
only alphanumeric characters and `#`, and have length within [3, 100];
tags that enter the final list from the trending source or from the fallback
text extraction are not passed through this normalization. -/
theorem cleanHashtags_format (l : List String) :
    ∀ t ∈ cleanHashtags l,
      3 ≤ t.length ∧ t.length ≤ 100 ∧ t.data.head? = some '#'
        ∧ ∀ c ∈ t.data, isHashtagChar c = true := by
  intro t ht
  rw [cleanHashtags] at ht
  obtain ⟨h, _, heq⟩ := List.mem_filterMap.mp ht
  simp only at heq
  split_ifs at heq with hcond
  · obtain rfl : cleanOneHashtag h = t := by injection heq
    obtain ⟨rest, hdata, hrest⟩ := cleanOneHashtag_data h
    refine ⟨by omega, hcond.2, ?_, ?_⟩
    · rw [hdata]; rfl
    · intro c hc
      rw [hdata] at hc
      rcases List.mem_cons.mp hc with rfl | hc'
      · rfl
      · exact hrest c hc'

/-- Witness for the amended C6 at a concrete input: `"foo bar!"` is cleaned
into `"#foobar"`, which satisfies the format guarantees. -/
theorem cleanHashtags_format_witness :
    3 ≤ "#foobar".length ∧ "#foobar".length ≤ 100
      ∧ "#foobar".data.head? = some '#'
      ∧ ∀ c ∈ "#foobar".data, isHashtagChar c = true :=
  cleanHashtags_format ["foo bar!"] "#foobar" (by decide)

/-- Concrete environment refuting C6 as stated: the trending fetch returns a
record whose tag `"#hello world!"` contains a space and an exclamation
mark. -/
def envTrendingDirty : GenEnv :=
  { trendingCall := fun _ _ _ => Except.ok
      { hashtags := [{ hashtag := "#hello world!", platform := "instagram",
                       engagementScore := some 900 }],
        source := "web_scraping_with_fallback", category := "general",
        platform := "instagram", success := true },
    descriptionCall := Except.ok { success := true, content := "d" },
    aiCall := Except.ok { success := true, content := "{}" },
    loads := fun _ => JsonOutcome.dict [] }

/-- A default request (`instagram`, `max_hashtags = 15`, trending and niche
included). -/
def requestDefault : HashtagRequest := { imagePath := "img.jpg" }

/-- Counterexample to C6 as stated: a trending-sourced tag reaches the final
hashtag list without being normalized — the final list contains
`"#hello world!"`, whose body is not alphanumeric-only. -/
theorem clean_normalization_counterexample :
    (generateEnhancedHashtags envTrendingDirty requestDefault).hashtags
        = ["#hello world!"]
      ∧ "#hello world!".data.any (fun c => !c.isAlphanum && !(c == '#')) = true := by
  exact ⟨by decide, by decide⟩

/-! ### C7: popular-bucket backfill -/

theorem backfillPopular_spec (popular0 : List String) :
    ∀ ts : List String,
      ∃ extra, backfillPopular popular0 ts = popular0 ++ extra
        ∧ extra.length ≤ ts.length ∧ extra.Nodup
        ∧ ∀ t ∈ extra, t ∈ ts ∧ t ∉ popular0 := by
  suffices h : ∀ (ts acc : List String),
      ∃ extra, backfillPopular acc ts = acc ++ extra
        ∧ extra.length ≤ ts.length ∧ extra.Nodup
        ∧ ∀ t ∈ extra, t ∈ ts ∧ t ∉ acc by
    intro ts; exact h ts popular0
  intro ts
  induction ts with
  | nil => intro acc; exact ⟨[], by simp [backfillPopular], by simp, by simp, by simp⟩
  | cons t ts ih =>
    intro acc
    rw [backfillPopular, List.foldl_cons]
    by_cases hmem : t ∈ acc
    · simp only [if_pos hmem]
      obtain ⟨extra, he, hlen, hnd, hall⟩ := ih acc
      rw [backfillPopular] at he
      refine ⟨extra, he, by simpa using Nat.le_succ_of_le hlen, hnd, ?_⟩
      intro x hx
      exact ⟨List.mem_cons_of_mem _ (hall x hx).1, (hall x hx).2⟩
    · simp only [if_neg hmem]
      obtain ⟨extra, he, hlen, hnd, hall⟩ := ih (acc ++ [t])
      rw [backfillPopular] at he
      refine ⟨t :: extra, ?_, by simpa using hlen, ?_, ?_⟩
      · rw [he, List.append_assoc]; rfl
      · refine List.Pairwise.cons ?_ hnd
        intro b hb hbt
        have := (hall b hb).2
        exact this (hbt ▸ List.mem_append_right _ (List.mem_singleton_self t))
      · intro x hx
        rcases List.mem_cons.mp hx with rfl | hx'
        · exact ⟨List.mem_cons_self _ _, hmem⟩
        · refine ⟨List.mem_cons_of_mem _ (hall x hx').1, ?_⟩
          intro hxa
          exact (hall x hx').2 (List.mem_append_left _ hxa)

/-- Claim C7, amended: when the AI popular bucket has fewer than five
entries, the merge appends up to three of the first trending tags, skipping
only tags already present in the popular bucket itself; presence in the
trending bucket does not prevent the backfill.  When the popular bucket has
five or more entries it is unchanged. -/
theorem combineHashtagSources_backfill (aiHashtags : List (String × List String))
    (trendingHashtags : List TrendingHashtagData) :
    (combineHashtagSources aiHashtags trendingHashtags).trending
        = trendingHashtags.map (fun th => th.hashtag)
      ∧ (5 ≤ (getFieldD aiHashtags "popular_hashtags").length →
          (combineHashtagSources aiHashtags trendingHashtags).popular
            = getFieldD aiHashtags "popular_hashtags")
      ∧ ((getFieldD aiHashtags "popular_hashtags").length < 5 →
          ∃ extra,
            (combineHashtagSources aiHashtags trendingHashtags).popular
                = getFieldD aiHashtags "popular_hashtags" ++ extra
              ∧ extra.length ≤ 3 ∧ extra.Nodup
              ∧ ∀ t ∈ extra,
                  t ∈ (trendingHashtags.map (fun th => th.hashtag)).take 3
                    ∧ t ∉ getFieldD aiHashtags "popular_hashtags") := by
  refine ⟨rfl, ?_, ?_⟩
  · intro h5
    rw [combineHashtagSources]
    simp only [if_neg (by omega : ¬ (getFieldD aiHashtags "popular_hashtags").length < 5)]
  · intro h5
    rw [combineHashtagSources]
    simp only [if_pos h5]
    obtain ⟨extra, he, hlen, hnd, hall⟩ :=
      backfillPopular_spec (getFieldD aiHashtags "popular_hashtags")
        ((trendingHashtags.map (fun th => th.hashtag)).take 3)
    exact ⟨extra, he,
      le_trans hlen (by simp [Nat.min_le_left]), hnd, hall⟩

/-- Witness for the amended C7 at a concrete input: an already-full popular
bucket is left unchanged. -/
theorem combineHashtagSources_backfill_witness :
    (combineHashtagSources
        [("popular_hashtags", ["#p1", "#p2", "#p3", "#p4", "#p5"])]
        [{ hashtag := "#tag1", platform := "instagram" }]).popular
      = getFieldD [("popular_hashtags", ["#p1", "#p2", "#p3", "#p4", "#p5"])]
          "popular_hashtags" :=
  (combineHashtagSources_backfill
      [("popular_hashtags", ["#p1", "#p2", "#p3", "#p4", "#p5"])]
      [{ hashtag := "#tag1", platform := "instagram" }]).2.1 (by decide)

/-- Counterexample to C7 as stated: with an empty AI popular bucket, the first
trending tag `"#tag1"` is appended to the popular bucket even though it is
already in the trending bucket. -/
theorem combine_backfill_counterexample :
    (combineHashtagSources [] [{ hashtag := "#tag1", platform := "instagram" }]).popular
        = ["#tag1"]
      ∧ (combineHashtagSources [] [{ hashtag := "#tag1", platform := "instagram" }]).trending
        = ["#tag1"] := by
  exact ⟨rfl, rfl⟩

/-! ### C9: trending score -/

/-- The trending score exactly as claim C9 words it: the mean of the
records' engagement scores (taken as stored, without the `or 500`
substitution) mapped by `mean / 1000 * 10` and clamped to `[1, 10]`.  This
definition follows the claim text and is compared against the source's
`calculateTrendingScore`. -/
def claimedTrendingScoreC9 (trendingData : List TrendingHashtagData) : ℚ :=
  if trendingData.isEmpty then 3
  else
    let scores := trendingData.map (fun th => ((th.engagementScore.getD 0 : Int) : ℚ))
    let avg := scores.sum / (scores.length : ℚ)
    min 10 (max 1 (avg / 1000 * 10))

/-- Counterexample to C9 as stated: on a single record whose engagement
score is 0, the code substitutes 500 (`th.engagement_score or 500`) and
returns 5, whereas the claimed mean-based formula yields 1. -/
theorem trending_score_counterexample :
    calculateTrendingScore
        [{ hashtag := "#x", platform := "instagram", engagementScore := some 0 }] = 5
      ∧ claimedTrendingScoreC9
        [{ hashtag := "#x", platform := "instagram", engagementScore := some 0 }] = 1 := by
  constructor
  · show (if False then (3 : ℚ) else _) = 5
    norm_num [calculateTrendingScore, effectiveEngagementScore]
  · norm_num [claimedTrendingScoreC9]

/-- Claim C9, amended: `trending_score` is 3.0 on an empty record list;
otherwise it is the mean of the records' effective engagement scores —
a missing or zero score counts as 500 — mapped by `mean / 1000 * 10` and
clamped via `min(10, max(1, ·))`; the result always lies in [1, 10]. -/
theorem calculateTrendingScore_spec (trendingData : List TrendingHashtagData) :
    calculateTrendingScore [] = 3
      ∧ (trendingData ≠ [] →
          calculateTrendingScore trendingData =
            min 10 (max 1
              ((trendingData.map
                  (fun th => effectiveEngagementScore th.engagementScore)).sum
                / (trendingData.length : ℚ) / 1000 * 10)))
      ∧ 1 ≤ calculateTrendingScore trendingData
      ∧ calculateTrendingScore trendingData ≤ 10 := by
  refine ⟨by norm_num [calculateTrendingScore], ?_, ?_, ?_⟩
  · intro hne
    rw [calculateTrendingScore, if_neg (by simpa using hne)]
    simp only [List.length_map]
  · rw [calculateTrendingScore]
    split_ifs
    · norm_num
    · exact le_min (by norm_num) (le_max_left 1 _)
  · rw [calculateTrendingScore]
    split_ifs
    · norm_num
    · exact min_le_left _ _

/-- Witness for the amended C9 at a concrete input: a single record with
engagement score 2000 is clamped to 10. -/
theorem calculateTrendingScore_spec_witness :
    calculateTrendingScore
        [{ hashtag := "#y", platform := "instagram", engagementScore := some 2000 }] = 10 := by
  have h := (calculateTrendingScore_spec
      [{ hashtag := "#y", platform := "instagram",
         engagementScore := some 2000 }]).2.1 (by simp)
  rw [h]
  norm_num [effectiveEngagementScore]

/-! ### C10: the catch-all exception handler -/

/-- Claim C10: `generate_enhanced_hashtags` never propagates an exception:
whenever its body raises `e`, the returned result has `success = False`,
the exception message as error, every hashtag list empty and
`total_count = 0`. -/
theorem generate_catches_exceptions (env : GenEnv) (request : HashtagRequest)
    (e : String) (h : generateEnhancedHashtagsBody env request = Except.error e) :
    generateEnhancedHashtags env request =
      { hashtags := [], trendingHashtags := [], nicheHashtags := [],
        brandedHashtags := [], aiGeneratedHashtags := [],
        realTrendingHashtags := [], platform := request.platform,
        totalCount := 0, engagementPotential := none, trendingScore := none,
        success := false, error := some e } := by
  rw [generateEnhancedHashtags, h]
  rfl

/-- Concrete environment whose description call raises. -/
def envDescriptionRaises : GenEnv :=
  { trendingCall := fun _ _ _ => Except.ok
      { hashtags := [], source := "s", category := "general",
        platform := "instagram", success := true },
    descriptionCall := Except.error "boom",
    aiCall := Except.ok { success := true, content := "{}" },
    loads := fun _ => JsonOutcome.dict [] }

/-- Witness for C10: the raised message `"boom"` is absorbed into a failed
empty result. -/
theorem generate_catches_exceptions_witness :
    generateEnhancedHashtags envDescriptionRaises requestDefault =
      { hashtags := [], trendingHashtags := [], nicheHashtags := [],
        brandedHashtags := [], aiGeneratedHashtags := [],
        realTrendingHashtags := [], platform := requestDefault.platform,
        totalCount := 0, engagementPotential := none, trendingScore := none,
        success := false, error := some "boom" } :=
  generate_catches_exceptions envDescriptionRaises requestDefault "boom" (by rfl)

/-! ### C2: when the result is a failure -/

/-- A step of the backfill loop on a list value is exactly a step of
`backfillPopular`, so on a list the raw backfill never raises. -/
theorem pyBackfill_strList (tags : List String) (items : List String) :
    tags.foldl pyBackfillStep (Except.ok (ParsedValue.strList items))
      = Except.ok (ParsedValue.strList (backfillPopular items tags)) := by
  induction tags generalizing items with
  | nil => rfl
  | cons t rest ih =>
    have hstep : pyBackfillStep (Except.ok (ParsedValue.strList items)) t
        = Except.ok (ParsedValue.strList (if t ∈ items then items else items ++ [t])) := by
      by_cases ht : t ∈ items <;> simp [pyBackfillStep, ht]
    rw [List.foldl_cons, hstep, ih]
    rfl

/-- On a JSON object all of whose values are lists of strings, the parse
loop raises nothing and yields only string-list values. -/
theorem parseFields_strList (fields : List (String × JsonValue))
    (h : ∀ kv ∈ fields, ∃ items, kv.2 = JsonValue.strList items) :
    ∃ out, parseFields fields = Except.ok out
      ∧ ∀ kv ∈ out, ∃ items, kv.2 = ParsedValue.strList items := by
  induction fields with
  | nil => exact ⟨[], rfl, by simp⟩
  | cons kv rest ih =>
    obtain ⟨tail, htail, htall⟩ := ih (fun p hp => h p (List.mem_cons_of_mem _ hp))
    obtain ⟨items, hitems⟩ := h kv (List.mem_cons_self _ _)
    obtain ⟨k, v⟩ := kv
    have hv : v = JsonValue.strList items := hitems
    subst hv
    refine ⟨(k, ParsedValue.strList (cleanHashtags items)) :: tail, ?_, ?_⟩
    · simp [parseFields, htail]
    · intro p hp
      rcases List.mem_cons.mp hp with rfl | hp
      · exact ⟨cleanHashtags items, rfl⟩
      · exact htall p hp

/-- Reading any key of a dict of string-list values yields a string list
(the default for a missing key is the empty list). -/
theorem getFieldVal_strList (out : List (String × ParsedValue)) (key : String)
    (h : ∀ kv ∈ out, ∃ items, kv.2 = ParsedValue.strList items) :
    ∃ items, getFieldVal out key = ParsedValue.strList items := by
  rw [getFieldVal]
  cases hf : out.find? (fun p => p.1 == key) with
  | none => exact ⟨[], rfl⟩
  | some p => exact h p (List.mem_of_find?_eq_some hf)

/-- Slicing a string-list bucket value is `List.take`. -/
theorem pySlice_strList (l : List String) (n : Nat) :
    pySlice (ParsedValue.strList l) n = Except.ok (l.take n) := rfl

/-- On a dict of string-list values, `_combine_hashtag_sources` raises
nothing and every bucket of the result is again a string list. -/
theorem combineHashtagSourcesVal_strList (out : List (String × ParsedValue))
    (trendingHashtags : List TrendingHashtagData)
    (h : ∀ kv ∈ out, ∃ items, kv.2 = ParsedValue.strList items) :
    ∃ c, combineHashtagSourcesVal out trendingHashtags = Except.ok c
      ∧ (∃ l, c.niche = ParsedValue.strList l)
      ∧ (∃ l, c.popular = ParsedValue.strList l)
      ∧ (∃ l, c.branded = ParsedValue.strList l) := by
  obtain ⟨pop, hpop⟩ := getFieldVal_strList out "popular_hashtags" h
  obtain ⟨nic, hnic⟩ := getFieldVal_strList out "niche_hashtags" h
  obtain ⟨br, hbr⟩ := getFieldVal_strList out "branded_hashtags" h
  by_cases h5 : pop.length < 5
  · refine ⟨{ trending := trendingHashtags.map (fun th => th.hashtag),
              niche := ParsedValue.strList nic,
              popular := ParsedValue.strList (backfillPopular pop
                ((trendingHashtags.map (fun th => th.hashtag)).take 3)),
              branded := ParsedValue.strList br }, ?_, ⟨nic, rfl⟩, ⟨_, rfl⟩, ⟨br, rfl⟩⟩
    simp [combineHashtagSourcesVal, hpop, hnic, hbr, pyLen, h5, pyBackfill_strList]
  · refine ⟨{ trending := trendingHashtags.map (fun th => th.hashtag),
              niche := ParsedValue.strList nic,
              popular := ParsedValue.strList pop,
              branded := ParsedValue.strList br }, ?_, ⟨nic, rfl⟩, ⟨pop, rfl⟩, ⟨br, rfl⟩⟩
    simp [combineHashtagSourcesVal, hpop, hnic, hbr, pyLen, h5]

/-- On a string-list niche bucket, the niche contribution never raises: it
is the first five entries when `include_niche` is set and empty otherwise. -/
theorem nicheContribution_strList (request : HashtagRequest) (c : CombinedBucketsVal)
    (l : List String) (h : c.niche = ParsedValue.strList l) :
    nicheContribution request c
      = Except.ok (if request.includeNiche then l.take 5 else []) := by
  rw [nicheContribution, h]
  by_cases hf : request.includeNiche <;> simp [hf, pySlice]

/-- On a string-list branded bucket, the branded contribution never raises:
it is the first three entries when `include_branded` is set and empty
otherwise. -/
theorem brandedContribution_strList (request : HashtagRequest) (c : CombinedBucketsVal)
    (l : List String) (h : c.branded = ParsedValue.strList l) :
    brandedContribution request c
      = Except.ok (if request.includeBranded then l.take 3 else []) := by
  rw [brandedContribution, h]
  by_cases hf : request.includeBranded <;> simp [hf, pySlice]

/-- Reading a dict of string-list values through `getFieldVal` is reading
the underlying string lists through `getFieldD`. -/
theorem getFieldVal_map_strList (ai : List (String × List String)) (key : String) :
    getFieldVal (ai.map (fun p => (p.1, ParsedValue.strList p.2))) key
      = ParsedValue.strList (getFieldD ai key) := by
  induction ai with
  | nil => rfl
  | cons p rest ih =>
    rw [getFieldVal, getFieldD, List.map_cons, List.find?_cons, List.find?_cons]
    cases hk : (p.1 == key) with
    | true => simp [hk]
    | false =>
      simp only [hk]
      exact ih

/-- On a dict of string-list values the raw `_combine_hashtag_sources`
reduces to the string-list combine `combineHashtagSources`: the raw model is
a conservative extension of the one the backfill theorem speaks about. -/
theorem combineHashtagSourcesVal_eq_strList (ai : List (String × List String))
    (trendingHashtags : List TrendingHashtagData) :
    combineHashtagSourcesVal (ai.map (fun p => (p.1, ParsedValue.strList p.2)))
        trendingHashtags
      = Except.ok
          { trending := (combineHashtagSources ai trendingHashtags).trending,
            niche := ParsedValue.strList
              (combineHashtagSources ai trendingHashtags).niche,
            popular := ParsedValue.strList
              (combineHashtagSources ai trendingHashtags).popular,
            branded := ParsedValue.strList
              (combineHashtagSources ai trendingHashtags).branded } := by
  simp only [combineHashtagSourcesVal, combineHashtagSources,
    getFieldVal_map_strList, pyLen]
  by_cases h5 : (getFieldD ai "popular_hashtags").length < 5
  · simp [h5, pyBackfill_strList]
  · simp [h5]

/-- A successful body run whose result is nevertheless marked failed can
only come from the AI-failure branch: the only `success = False` result the
`try` block itself builds carries the AI call's error. -/
theorem generate_body_ok_failure (env : GenEnv) (request : HashtagRequest)
    (r : EnhancedHashtagResult)
    (hbody : generateEnhancedHashtagsBody env request = Except.ok r)
    (hr : r.success = false) :
    ∃ d a, env.descriptionCall = Except.ok d ∧ env.aiCall = Except.ok a
      ∧ a.success = false := by
  cases hdesc : env.descriptionCall with
  | error e => simp [generateEnhancedHashtagsBody, hdesc] at hbody
  | ok d =>
    cases hai : env.aiCall with
    | error e => simp [generateEnhancedHashtagsBody, hdesc, hai] at hbody
    | ok a =>
      by_cases hs : a.success = true
      · exfalso
        cases hparse : parseAIHashtagResponse env.loads a.content with
        | error e =>
          simp [generateEnhancedHashtagsBody, hdesc, hai, hs, hparse] at hbody
        | ok aiH =>
          cases hcomb : combineHashtagSourcesVal aiH
              (getRealTrendingHashtags env (requestCategory request)
                request.platform 8) with
          | error e =>
            simp [generateEnhancedHashtagsBody, hdesc, hai, hs, hparse, hcomb] at hbody
          | ok c =>
            cases hnic : nicheContribution request c with
            | error e =>
              simp [generateEnhancedHashtagsBody, hdesc, hai, hs, hparse, hcomb,
                hnic] at hbody
            | ok nt =>
              cases hpop : pySlice c.popular 5 with
              | error e =>
                simp [generateEnhancedHashtagsBody, hdesc, hai, hs, hparse, hcomb,
                  hnic, hpop] at hbody
              | ok pt =>
                cases hbr : brandedContribution request c with
                | error e =>
                  simp [generateEnhancedHashtagsBody, hdesc, hai, hs, hparse, hcomb,
                    hnic, hpop, hbr] at hbody
                | ok bt =>
                  simp only [generateEnhancedHashtagsBody, hdesc, hai, hs, hparse,
                    hcomb, hnic, hpop, hbr] at hbody
                  rw [if_neg (by simp [hs])] at hbody
                  injection hbody with hrec
                  rw [← hrec] at hr
                  simp at hr
      · exact ⟨d, a, rfl, rfl, by simpa using hs⟩

/-- Claim C2, amended: the result has `success = False` exactly when the
body raises — a raising collaborator, a non-object JSON value, a bucket list
with a non-string element, or a non-list bucket value reaching `len`,
`append` or a slice — or the AI-suggestion call reports failure.  In the
AI-failure branch every hashtag list is empty and the AI error message is
propagated (default `"Unknown error occurred"`).  Conversely, when both
analyzer calls return, the AI call reports success and its content either
fails to decode or decodes to a JSON object all of whose values are lists of
strings, the result is a success — a condition that never mentions the
trending call, so trending absence alone cannot cause a failure. -/
theorem generate_success_iff (env : GenEnv) (request : HashtagRequest) :
    ((generateEnhancedHashtags env request).success = false ↔
        (∃ e, generateEnhancedHashtagsBody env request = Except.error e)
          ∨ (∃ d a, env.descriptionCall = Except.ok d ∧ env.aiCall = Except.ok a
              ∧ a.success = false))
      ∧ (∀ d a, env.descriptionCall = Except.ok d → env.aiCall = Except.ok a →
          a.success = false →
            (generateEnhancedHashtags env request).hashtags = []
            ∧ (generateEnhancedHashtags env request).trendingHashtags = []
            ∧ (generateEnhancedHashtags env request).nicheHashtags = []
            ∧ (generateEnhancedHashtags env request).brandedHashtags = []
            ∧ (generateEnhancedHashtags env request).aiGeneratedHashtags = []
            ∧ (generateEnhancedHashtags env request).error
                = some (a.error.getD "Unknown error occurred")
            ∧ (generateEnhancedHashtags env request).success = false)
      ∧ (∀ d a, env.descriptionCall = Except.ok d → env.aiCall = Except.ok a →
          a.success = true →
          (env.loads (preprocessResponse a.content) = JsonOutcome.decodeError
            ∨ ∃ fields, env.loads (preprocessResponse a.content)
                  = JsonOutcome.dict fields
                ∧ ∀ kv ∈ fields, ∃ items, kv.2 = JsonValue.strList items) →
          (generateEnhancedHashtags env request).success = true) := by
  refine ⟨⟨fun hfalse => ?_, fun h => ?_⟩,
    fun d a hd ha hfail => ?_, fun d a hd ha hs hw => ?_⟩
  · cases hbody : generateEnhancedHashtagsBody env request with
    | error e => exact Or.inl ⟨e, rfl⟩
    | ok r =>
      have hr : r.success = false := by
        rw [generateEnhancedHashtags, hbody] at hfalse
        exact hfalse
      exact Or.inr (generate_body_ok_failure env request r hbody hr)
  · rcases h with ⟨e, he⟩ | ⟨d, a, hd, ha, hfail⟩
    · rw [generateEnhancedHashtags, he]
      rfl
    · simp [generateEnhancedHashtags, generateEnhancedHashtagsBody, hd, ha, hfail]
  · simp only [generateEnhancedHashtags, generateEnhancedHashtagsBody, hd, ha, hfail]
    simp
  · have hparse : ∃ out, parseAIHashtagResponse env.loads a.content = Except.ok out
        ∧ ∀ kv ∈ out, ∃ items, kv.2 = ParsedValue.strList items := by
      rcases hw with hdec | ⟨fields, hdict, hall⟩
      · refine ⟨[("trending_hashtags", ParsedValue.strList
              ((extractHashtagsFromText (preprocessResponse a.content)).take 3)),
            ("popular_hashtags", ParsedValue.strList
              (((extractHashtagsFromText (preprocessResponse a.content)).drop 3).take 5)),
            ("niche_hashtags", ParsedValue.strList
              (((extractHashtagsFromText (preprocessResponse a.content)).drop 8).take 4)),
            ("branded_hashtags", ParsedValue.strList
              (((extractHashtagsFromText (preprocessResponse a.content)).drop 12).take 3))],
          by simp [parseAIHashtagResponse, hdec], ?_⟩
        intro kv hkv
        simp only [List.mem_cons, List.not_mem_nil, or_false] at hkv
        rcases hkv with rfl | rfl | rfl | rfl <;> exact ⟨_, rfl⟩
      · obtain ⟨out, hout, hall'⟩ := parseFields_strList fields hall
        exact ⟨out, by simp [parseAIHashtagResponse, hdict, hout], hall'⟩
    obtain ⟨out, hout, hall⟩ := hparse
    obtain ⟨c, hc, ⟨ln, hln⟩, ⟨lp, hlp⟩, ⟨lb, hlb⟩⟩ :=
      combineHashtagSourcesVal_strList out
        (getRealTrendingHashtags env (requestCategory request) request.platform 8) hall
    simp [generateEnhancedHashtags, generateEnhancedHashtagsBody, hd, ha, hs, hout, hc,
      nicheContribution_strList request c ln hln,
      brandedContribution_strList request c lb hlb, hlp, pySlice]

/-- Concrete environment refuting the original C2: the AI-suggestion call
succeeds with content `"1"` (valid JSON, not an object), so the pipeline
raises internally and the result fails although the AI call did not. -/
def envAiNonDict : GenEnv :=
  { trendingCall := fun _ _ _ => Except.ok
      { hashtags := [], source := "s", category := "general",
        platform := "instagram", success := true },
    descriptionCall := Except.ok { success := true, content := "d" },
    aiCall := Except.ok { success := true, content := "1" },
    loads := fun _ => JsonOutcome.nonDict "int" }

/-- Concrete environment for a non-list bucket value: the AI call succeeds
with the JSON object `\x7b"popular_hashtags": 5\x7d`, whose popular bucket
is a number, so `len(combined["popular"])` raises `TypeError` inside
`_combine_hashtag_sources`. -/
def envAiIntPopular : GenEnv :=
  { trendingCall := fun _ _ _ => Except.ok
      { hashtags := [], source := "s", category := "general",
        platform := "instagram", success := true },
    descriptionCall := Except.ok { success := true, content := "d" },
    aiCall := Except.ok
      { success := true, content := "\x7b\"popular_hashtags\": 5\x7d" },
    loads := fun _ =>
      JsonOutcome.dict [("popular_hashtags", JsonValue.unsized "int")] }

/-- Counterexample to C2 as stated: `success = False` although the upstream
AI-suggestion call succeeded — once on content that is valid JSON but not an
object, once on a JSON object whose popular bucket is a number. -/
theorem generate_failure_counterexample :
    ((generateEnhancedHashtags envAiNonDict requestDefault).success = false
        ∧ envAiNonDict.aiCall = Except.ok { success := true, content := "1" })
      ∧ ((generateEnhancedHashtags envAiIntPopular requestDefault).success = false
        ∧ (generateEnhancedHashtags envAiIntPopular requestDefault).error
            = some "object of type 'int' has no len()"
        ∧ envAiIntPopular.aiCall = Except.ok
            { success := true, content := "\x7b\"popular_hashtags\": 5\x7d" }) := by
  exact ⟨⟨by rfl, rfl⟩, ⟨by rfl, by rfl, rfl⟩⟩

/-- Concrete environment for the AI-failure branch: the AI call fails with
`"rate limited"` while trending data is present. -/
def envAiRateLimited : GenEnv :=
  { trendingCall := fun _ _ _ => Except.ok
      { hashtags := [{ hashtag := "#food", platform := "instagram",
                       engagementScore := some 800 }],
        source := "s", category := "food", platform := "instagram",
        success := true },
    descriptionCall := Except.ok { success := true, content := "d" },
    aiCall := Except.ok { success := false, error := some "rate limited" },
    loads := fun _ => JsonOutcome.decodeError }

/-- Concrete environment for the well-formed success branch: the trending
call raises, and the AI content fails to decode as JSON, so the fallback
text-extraction buckets are used. -/
def envAiPlainText : GenEnv :=
  { trendingCall := fun _ _ _ => Except.error "down",
    descriptionCall := Except.ok { success := true, content := "d" },
    aiCall := Except.ok { success := true, content := "use #sunset and #beach" },
    loads := fun _ => JsonOutcome.decodeError }

/-- Witness for the amended C2: a failing AI call with message
`"rate limited"` yields a failed result with that error and empty hashtag
lists, and a succeeding AI call with undecodable content yields a successful
result even though the trending call raised. -/
theorem generate_success_iff_witness :
    ((generateEnhancedHashtags envAiRateLimited requestDefault).hashtags = []
      ∧ (generateEnhancedHashtags envAiRateLimited requestDefault).trendingHashtags = []
      ∧ (generateEnhancedHashtags envAiRateLimited requestDefault).nicheHashtags = []
      ∧ (generateEnhancedHashtags envAiRateLimited requestDefault).brandedHashtags = []
      ∧ (generateEnhancedHashtags envAiRateLimited requestDefault).aiGeneratedHashtags = []
      ∧ (generateEnhancedHashtags envAiRateLimited requestDefault).error
          = some ((({ success := false, error := some "rate limited" } :
              AnalyzeResult).error).getD "Unknown error occurred")
      ∧ (generateEnhancedHashtags envAiRateLimited requestDefault).success = false)
    ∧ (generateEnhancedHashtags envAiPlainText requestDefault).success = true :=
  ⟨(generate_success_iff envAiRateLimited requestDefault).2.1
      { success := true, content := "d" }
      { success := false, error := some "rate limited" } rfl rfl rfl,
   (generate_success_iff envAiPlainText requestDefault).2.2
      { success := true, content := "d" }
      { success := true, content := "use #sunset and #beach" } rfl rfl rfl
      (Or.inl rfl)⟩

/-! ### C8: the curated-table provider -/

/-- Counterexample to C8 as stated: `"food"` is a category of the curated
table, yet for a platform without a table entry (here `"tiktok"`) the
curated provider returns the empty list. -/
theorem curated_table_counterexample :
    getCategoryTrendingHashtags "food" "tiktok" "t" = []
      ∧ "food" ∈ curatedCategories
      ∧ getCategoryTrendingHashtags "food" "instagram" "t" ≠ [] := by
  refine ⟨rfl, by decide, by decide⟩

/-- Claim C8, amended: the curated-table provider never fails (it is a total
function producing one record per table string, with the position-decay
scores), and it returns a non-empty list exactly for the
(category, platform) pairs present in the table — every category of the
table paired with `"instagram"` or `"facebook"`.  For a platform missing
from a category's entry it returns the empty list. -/
theorem curated_table_nonempty (category platform nowStr : String) :
    (getCategoryTrendingHashtags category platform nowStr).length
        = (curatedTable category platform).length
      ∧ (category ∈ curatedCategories →
          platform = "instagram" ∨ platform = "facebook" →
          getCategoryTrendingHashtags category platform nowStr ≠ []) := by
  have hlen : (getCategoryTrendingHashtags category platform nowStr).length
      = (curatedTable category platform).length := by
    rw [getCategoryTrendingHashtags, List.length_map, List.enum_length]
  refine ⟨hlen, ?_⟩
  intro hcat hplat hempty
  have hne : curatedTable category platform ≠ [] := by
    rw [curatedCategories] at hcat
    simp only [List.mem_cons, List.mem_singleton] at hcat
    rcases hplat with rfl | rfl <;>
      rcases hcat with rfl | rfl | rfl | rfl | rfl | rfl | rfl | rfl | h <;>
        first
          | decide
          | cases h
  apply hne
  apply List.eq_nil_of_length_eq_zero
  rw [← hlen, hempty]
  rfl

/-- Witness for the amended C8 at a concrete input: the `"food"` /
`"instagram"` entry yields records. -/
theorem curated_table_nonempty_witness :
    getCategoryTrendingHashtags "food" "instagram" "2025-01-01" ≠ [] :=
  (curated_table_nonempty "food" "instagram" "2025-01-01").2 (by decide)
    (Or.inl rfl)

/-! ### C4: cache TTL -/

/-- A fetcher state with one cache key removed — the reference behaviour a
stale read must match. -/
def eraseCacheKey (state : FetcherState) (key : String) : FetcherState :=
  { state with cache := state.cache.filter (fun p => !(p.1 == key)) }

theorem lookupCache_filter_self (cache : List (String × CacheEntry)) (key : String) :
    lookupCache (cache.filter (fun p => !(p.1 == key))) key = none := by
  have h : List.find? (fun p => p.1 == key) (cache.filter (fun p => !(p.1 == key)))
      = none := by
    rw [List.find?_eq_none]
    intro x hx
    have := (List.mem_filter.mp hx).2
    simpa using this
  rw [lookupCache, h]
  rfl

theorem getFromCache_fresh (s : FetcherState) (now : ℚ) (key : String)
    (entry : CacheEntry) (hl : lookupCache s.cache key = some entry)
    (hf : now - entry.timestamp < cacheDuration) :
    getFromCache s now key = some entry.data := by
  rw [getFromCache, hl]
  exact if_pos hf

theorem getFromCache_stale (s : FetcherState) (now : ℚ) (key : String)
    (entry : CacheEntry) (hl : lookupCache s.cache key = some entry)
    (hf : ¬ now - entry.timestamp < cacheDuration) :
    getFromCache s now key = none := by
  rw [getFromCache, hl]
  exact if_neg hf

theorem getFromCache_erase (s : FetcherState) (now : ℚ) (key : String) :
    getFromCache (eraseCacheKey s key) now key = none := by
  rw [getFromCache]
  rw [show lookupCache (eraseCacheKey s key).cache key = none from
    lookupCache_filter_self s.cache key]

theorem saveToCache_erase (s : FetcherState) (now : ℚ) (key : String)
    (data : CacheData) :
    saveToCache (eraseCacheKey s key) now key data = saveToCache s now key data := by
  rw [saveToCache, saveToCache, eraseCacheKey]
  simp [List.filter_filter]

/-- Claim C4: on a cache entry younger than the 3600s TTL each provider
returns the cached list with source `"<provider>_cache"` without fetching
(for the scraping provider: no network request is issued and the state is
unchanged); on an entry at or past the TTL the read behaves exactly as if
the entry were absent — the stale payload is never returned. -/
theorem cache_ttl_fresh_hit_stale_miss (s : FetcherState) (now : ℚ)
    (nowStr category platform : String) (entry : CacheEntry)
    (igR allR flR : NetResponse) :
    (lookupCache s.cache ("hashtagify_" ++ category ++ "_" ++ platform) = some entry →
      (now - entry.timestamp < cacheDuration →
        fetchTrendingFromHashtagify s now nowStr category platform =
          ({ hashtags := entry.data.hashtags, source := "hashtagify_cache",
             category := category, platform := platform, success := true }, s))
      ∧ (¬ now - entry.timestamp < cacheDuration →
        fetchTrendingFromHashtagify s now nowStr category platform =
          fetchTrendingFromHashtagify
            (eraseCacheKey s ("hashtagify_" ++ category ++ "_" ++ platform))
            now nowStr category platform))
    ∧ (lookupCache s.cache ("ritetag_" ++ category ++ "_" ++ platform) = some entry →
      (now - entry.timestamp < cacheDuration →
        fetchTrendingFromRitetag s now nowStr category platform =
          ({ hashtags := entry.data.hashtags, source := "ritetag_cache",
             category := category, platform := platform, success := true }, s))
      ∧ (¬ now - entry.timestamp < cacheDuration →
        fetchTrendingFromRitetag s now nowStr category platform =
          fetchTrendingFromRitetag
            (eraseCacheKey s ("ritetag_" ++ category ++ "_" ++ platform))
            now nowStr category platform))
    ∧ (lookupCache s.cache (webScrapeCacheKey category platform) = some entry →
      (now - entry.timestamp < cacheDuration →
        fetchTrendingFromWebScraping s now nowStr category platform igR allR flR =
          { result := { hashtags := entry.data.hashtags, source := "webscrape_cache",
                        category := category, platform := platform, success := true },
            state := s, requestedHosts := [] })
      ∧ (¬ now - entry.timestamp < cacheDuration →
        fetchTrendingFromWebScraping s now nowStr category platform igR allR flR =
          fetchTrendingFromWebScraping
            (eraseCacheKey s (webScrapeCacheKey category platform))
            now nowStr category platform igR allR flR)) := by
  refine ⟨?_, ?_, ?_⟩
  · intro hl
    constructor
    · intro hf
      rw [fetchTrendingFromHashtagify,
        getFromCache_fresh s now _ entry hl hf]
    · intro hf
      rw [fetchTrendingFromHashtagify, fetchTrendingFromHashtagify,
        getFromCache_stale s now _ entry hl hf, getFromCache_erase]
      simp only [saveToCache_erase]
  · intro hl
    constructor
    · intro hf
      rw [fetchTrendingFromRitetag,
        getFromCache_fresh s now _ entry hl hf]
    · intro hf
      rw [fetchTrendingFromRitetag, fetchTrendingFromRitetag,
        getFromCache_stale s now _ entry hl hf, getFromCache_erase]
      simp only [saveToCache_erase]
  · intro hl
    constructor
    · intro hf
      rw [fetchTrendingFromWebScraping,
        getFromCache_fresh s now _ entry hl hf]
    · intro hf
      rw [fetchTrendingFromWebScraping, fetchTrendingFromWebScraping,
        getFromCache_stale s now _ entry hl hf, getFromCache_erase]
      simp only [eraseCacheKey, saveToCache, List.filter_filter, Bool.and_self]

/-- A concrete fetcher state holding one hashtagify entry saved at time
1000. -/
def cachedStateW : FetcherState :=
  { cache := [("hashtagify_food_instagram",
      { data := { hashtags := [{ hashtag := "#cachedfood", platform := "instagram",
                                 engagementScore := some 700 }],
                  category := "food", platform := "instagram" },
        timestamp := 1000 })],
    blockedSources := [] }

/-- Witness for C4 at a concrete input: at time 2000 (age 1000 < 3600) the
hashtagify provider returns the cached record with source
`"hashtagify_cache"` and an unchanged state. -/
theorem cache_ttl_fresh_hit_stale_miss_witness :
    fetchTrendingFromHashtagify cachedStateW 2000 "t" "food" "instagram" =
      ({ hashtags := [{ hashtag := "#cachedfood", platform := "instagram",
                        engagementScore := some 700 }],
         source := "hashtagify_cache", category := "food",
         platform := "instagram", success := true }, cachedStateW) :=
  ((cache_ttl_fresh_hit_stale_miss cachedStateW 2000 "t" "food" "instagram"
      { data := { hashtags := [{ hashtag := "#cachedfood", platform := "instagram",
                                 engagementScore := some 700 }],
                  category := "food", platform := "instagram" },
        timestamp := 1000 }
      NetResponse.otherError NetResponse.otherError NetResponse.otherError).1
    (by decide)).1 (by norm_num [cacheDuration])

/-! ### C3: the blocklist -/

theorem scrapeInstagramTrends_requested_eq (blocked : List String)
    (category nowStr : String) (r : NetResponse) :
    (scrapeInstagramTrends blocked category nowStr r).requestedHosts
      = if topHashtagsHost ∈ blocked then [] else [topHashtagsHost] := by
  rw [scrapeInstagramTrends.eq_def]
  by_cases hb : topHashtagsHost ∈ blocked
  · simp [hb]
  · cases r with
    | ok texts => simp [hb]
    | httpError status => by_cases h4 : status = 403 <;> simp [hb, h4]
    | requestError => simp [hb]
    | otherError => simp [hb]

theorem scrapeInstagramTrends_blocked_eq (blocked : List String)
    (category nowStr : String) (r : NetResponse) :
    (scrapeInstagramTrends blocked category nowStr r).blockedSources
      = if topHashtagsHost ∉ blocked ∧ r = NetResponse.httpError 403
        then topHashtagsHost :: blocked else blocked := by
  rw [scrapeInstagramTrends.eq_def]
  by_cases hb : topHashtagsHost ∈ blocked
  · simp [hb]
  · cases r with
    | ok texts => simp [hb]
    | httpError status => by_cases h4 : status = 403 <;> simp [hb, h4]
    | requestError => simp [hb]
    | otherError => simp [hb]

theorem scrapeInstagramTrends_blocked_superset (blocked : List String)
    (category nowStr : String) (r : NetResponse) :
    ∀ x ∈ blocked, x ∈ (scrapeInstagramTrends blocked category nowStr r).blockedSources := by
  intro x hx
  rw [scrapeInstagramTrends_blocked_eq]
  split_ifs <;> simp [hx]

theorem scrapeAllHashtagStep_requested_eq (blocked : List String)
    (category platform nowStr : String) (r : NetResponse) :
    (scrapeAllHashtagStep blocked category platform nowStr r).requestedHosts
      = if allHashtagHost ∈ blocked then [] else [allHashtagHost] := by
  rw [scrapeAllHashtagStep.eq_def]
  by_cases hb : allHashtagHost ∈ blocked
  · simp [hb]
  · cases r with
    | ok texts => simp [hb]
    | httpError status => by_cases h4 : status = 403 <;> simp [hb, h4]
    | requestError => simp [hb]
    | otherError => simp [hb]

theorem scrapeAllHashtagStep_blocked_eq (blocked : List String)
    (category platform nowStr : String) (r : NetResponse) :
    (scrapeAllHashtagStep blocked category platform nowStr r).blockedSources
      = if allHashtagHost ∉ blocked ∧ r = NetResponse.httpError 403
        then allHashtagHost :: blocked else blocked := by
  rw [scrapeAllHashtagStep.eq_def]
  by_cases hb : allHashtagHost ∈ blocked
  · simp [hb]
  · cases r with
    | ok texts => simp [hb]
    | httpError status => by_cases h4 : status = 403 <;> simp [hb, h4]
    | requestError => simp [hb]
    | otherError => simp [hb]

theorem scrapeAllHashtagStep_blocked_superset (blocked : List String)
    (category platform nowStr : String) (r : NetResponse) :
    ∀ x ∈ blocked,
      x ∈ (scrapeAllHashtagStep blocked category platform nowStr r).blockedSources := by
  intro x hx
  rw [scrapeAllHashtagStep_blocked_eq]
  split_ifs <;> simp [hx]

theorem scrapeForLikesStep_requested_eq (blocked : List String)
    (category platform nowStr : String) (r : NetResponse) :
    (scrapeForLikesStep blocked category platform nowStr r).requestedHosts
      = [forLikesHost] := by
  rw [scrapeForLikesStep.eq_def]
  cases r with
  | ok texts => rfl
  | httpError status => by_cases h4 : status = 403 <;> simp [h4]
  | requestError => rfl
  | otherError => rfl

theorem scrapeForLikesStep_blocked_eq (blocked : List String)
    (category platform nowStr : String) (r : NetResponse) :
    (scrapeForLikesStep blocked category platform nowStr r).blockedSources
      = if r = NetResponse.httpError 403 then forLikesHost :: blocked else blocked := by
  rw [scrapeForLikesStep.eq_def]
  cases r with
  | ok texts => simp
  | httpError status => by_cases h4 : status = 403 <;> simp [h4]
  | requestError => simp
  | otherError => simp

theorem scrapeTrendWebsites_blocked_proj (blocked : List String)
    (category platform nowStr : String) (r1 r2 : NetResponse) :
    (scrapeTrendWebsites blocked category platform nowStr r1 r2).blockedSources
      = (if (scrapeAllHashtagStep blocked category platform nowStr r1).hashtags.length < 5
            ∧ forLikesHost ∉ (scrapeAllHashtagStep blocked category platform nowStr r1).blockedSources
         then scrapeForLikesStep
            (scrapeAllHashtagStep blocked category platform nowStr r1).blockedSources
            category platform nowStr r2
         else { hashtags := [],
                blockedSources :=
                  (scrapeAllHashtagStep blocked category platform nowStr r1).blockedSources,
                requestedHosts := [] }).blockedSources := rfl

theorem scrapeTrendWebsites_requested_proj (blocked : List String)
    (category platform nowStr : String) (r1 r2 : NetResponse) :
    (scrapeTrendWebsites blocked category platform nowStr r1 r2).requestedHosts
      = (scrapeAllHashtagStep blocked category platform nowStr r1).requestedHosts
        ++ (if (scrapeAllHashtagStep blocked category platform nowStr r1).hashtags.length < 5
              ∧ forLikesHost ∉ (scrapeAllHashtagStep blocked category platform nowStr r1).blockedSources
           then scrapeForLikesStep
              (scrapeAllHashtagStep blocked category platform nowStr r1).blockedSources
              category platform nowStr r2
           else { hashtags := [],
                  blockedSources :=
                    (scrapeAllHashtagStep blocked category platform nowStr r1).blockedSources,
                  requestedHosts := [] }).requestedHosts := rfl

theorem scrapeTrendWebsites_blocked_superset (blocked : List String)
    (category platform nowStr : String) (r1 r2 : NetResponse) :
    ∀ x ∈ blocked,
      x ∈ (scrapeTrendWebsites blocked category platform nowStr r1 r2).blockedSources := by
  intro x hx
  rw [scrapeTrendWebsites_blocked_proj]
  have h1 := scrapeAllHashtagStep_blocked_superset blocked category platform nowStr r1 x hx
  split_ifs with hc
  · rw [scrapeForLikesStep_blocked_eq]
    split_ifs <;> simp [h1]
  · exact h1

theorem scrapeTrendWebsites_requested_mem (blocked : List String)
    (category platform nowStr : String) (r1 r2 : NetResponse) :
    ∀ host ∈ (scrapeTrendWebsites blocked category platform nowStr r1 r2).requestedHosts,
      (host = allHashtagHost ∧ allHashtagHost ∉ blocked)
        ∨ (host = forLikesHost ∧ forLikesHost ∉ blocked) := by
  intro host hh
  rw [scrapeTrendWebsites_requested_proj] at hh
  rcases List.mem_append.mp hh with h1 | h2
  · rw [scrapeAllHashtagStep_requested_eq] at h1
    split_ifs at h1 with hb
    · cases h1
    · exact Or.inl ⟨List.mem_singleton.mp h1, hb⟩
  · split_ifs at h2 with hc
    · rw [scrapeForLikesStep_requested_eq] at h2
      refine Or.inr ⟨List.mem_singleton.mp h2, ?_⟩
      intro hlk
      exact hc.2 (scrapeAllHashtagStep_blocked_superset blocked category platform
        nowStr r1 forLikesHost hlk)
    · cases h2

theorem scrapeTrendWebsites_403 (blocked : List String)
    (category platform nowStr : String) (r1 r2 : NetResponse) :
    (allHashtagHost ∈ (scrapeTrendWebsites blocked category platform nowStr r1 r2).requestedHosts →
      r1 = NetResponse.httpError 403 →
      allHashtagHost ∈ (scrapeTrendWebsites blocked category platform nowStr r1 r2).blockedSources)
    ∧ (forLikesHost ∈ (scrapeTrendWebsites blocked category platform nowStr r1 r2).requestedHosts →
      r2 = NetResponse.httpError 403 →
      forLikesHost ∈ (scrapeTrendWebsites blocked category platform nowStr r1 r2).blockedSources) := by
  constructor
  · intro hreq h403
    have hnb : allHashtagHost ∉ blocked := by
      rcases scrapeTrendWebsites_requested_mem blocked category platform nowStr r1 r2
        allHashtagHost hreq with ⟨-, h⟩ | ⟨he, -⟩
      · exact h
      · exact absurd he (by decide)
    have hstep1 : allHashtagHost ∈
        (scrapeAllHashtagStep blocked category platform nowStr r1).blockedSources := by
      rw [scrapeAllHashtagStep_blocked_eq, if_pos ⟨hnb, h403⟩]
      exact List.mem_cons_self _ _
    rw [scrapeTrendWebsites_blocked_proj]
    split_ifs with hc
    · rw [scrapeForLikesStep_blocked_eq]
      split_ifs <;> simp [hstep1]
    · exact hstep1
  · intro hreq h403
    rw [scrapeTrendWebsites_requested_proj] at hreq
    rcases List.mem_append.mp hreq with h1 | h2
    · rw [scrapeAllHashtagStep_requested_eq] at h1
      split_ifs at h1 with hb
      · cases h1
      · exact absurd (List.mem_singleton.mp h1) (by decide)
    · split_ifs at h2 with hc
      · rw [scrapeTrendWebsites_blocked_proj, if_pos hc,
          scrapeForLikesStep_blocked_eq, if_pos h403]
        exact List.mem_cons_self _ _
      · cases h2

theorem saveToCache_blockedSources (state : FetcherState) (now : ℚ) (key : String)
    (data : CacheData) :
    (saveToCache state now key data).blockedSources = state.blockedSources := rfl

/-- The `igStep` computed inside `fetch_trending_from_web_scraping`. -/
def igStepOf (s : FetcherState) (c : WebScrapeCall) : ScrapeStep :=
  if c.platform = "instagram" then
    scrapeInstagramTrends s.blockedSources c.category c.nowStr c.igResponse
  else
    { hashtags := [], blockedSources := s.blockedSources, requestedHosts := [] }

/-- The `webStep` computed inside `fetch_trending_from_web_scraping`. -/
def webStepOf (s : FetcherState) (c : WebScrapeCall) : ScrapeStep :=
  scrapeTrendWebsites (igStepOf s c).blockedSources c.category c.platform c.nowStr
    c.allHashtagResponse c.forLikesResponse

theorem webScrapeStep_miss_requested (s : FetcherState) (c : WebScrapeCall)
    (h : getFromCache s c.now (webScrapeCacheKey c.category c.platform) = none) :
    (webScrapeStep s c).requestedHosts
      = (igStepOf s c).requestedHosts ++ (webStepOf s c).requestedHosts := by
  rw [webScrapeStep, fetchTrendingFromWebScraping, h]
  rfl

theorem webScrapeStep_miss_blocked (s : FetcherState) (c : WebScrapeCall)
    (h : getFromCache s c.now (webScrapeCacheKey c.category c.platform) = none) :
    (webScrapeStep s c).state.blockedSources = (webStepOf s c).blockedSources := by
  rw [webScrapeStep, fetchTrendingFromWebScraping, h]
  rfl

theorem webScrapeStep_hit (s : FetcherState) (c : WebScrapeCall) (d : CacheData)
    (h : getFromCache s c.now (webScrapeCacheKey c.category c.platform) = some d) :
    (webScrapeStep s c).requestedHosts = [] ∧ (webScrapeStep s c).state = s := by
  rw [webScrapeStep, fetchTrendingFromWebScraping, h]
  exact ⟨rfl, rfl⟩

theorem webScrapeStep_success (s : FetcherState) (c : WebScrapeCall) :
    (webScrapeStep s c).result.success = true := by
  rw [webScrapeStep, fetchTrendingFromWebScraping]
  cases h : getFromCache s c.now (webScrapeCacheKey c.category c.platform) <;> rfl

theorem igStepOf_blocked_superset (s : FetcherState) (c : WebScrapeCall) :
    ∀ x ∈ s.blockedSources, x ∈ (igStepOf s c).blockedSources := by
  intro x hx
  rw [igStepOf]
  split_ifs
  · exact scrapeInstagramTrends_blocked_superset _ _ _ _ x hx
  · exact hx

theorem webScrapeStep_blocked_superset (s : FetcherState) (c : WebScrapeCall) :
    ∀ x ∈ s.blockedSources, x ∈ (webScrapeStep s c).state.blockedSources := by
  intro x hx
  cases h : getFromCache s c.now (webScrapeCacheKey c.category c.platform) with
  | some d => rw [(webScrapeStep_hit s c d h).2]; exact hx
  | none =>
    rw [webScrapeStep_miss_blocked s c h, webStepOf]
    exact scrapeTrendWebsites_blocked_superset _ _ _ _ _ _ x
      (igStepOf_blocked_superset s c x hx)

theorem webScrapeStep_blocked_skip (s : FetcherState) (c : WebScrapeCall)
    (host : String) (hb : host ∈ s.blockedSources) :
    host ∉ (webScrapeStep s c).requestedHosts := by
  cases h : getFromCache s c.now (webScrapeCacheKey c.category c.platform) with
  | some d => rw [(webScrapeStep_hit s c d h).1]; simp
  | none =>
    rw [webScrapeStep_miss_requested s c h]
    intro hmem
    rcases List.mem_append.mp hmem with h1 | h2
    · rw [igStepOf] at h1
      split_ifs at h1 with hp
      · rw [scrapeInstagramTrends_requested_eq] at h1
        split_ifs at h1 with ht
        · cases h1
        · exact ht (List.mem_singleton.mp h1 ▸ hb)
      · cases h1
    · rcases scrapeTrendWebsites_requested_mem _ _ _ _ _ _ host h2 with
        ⟨rfl, hna⟩ | ⟨rfl, hnl⟩
      · exact hna (igStepOf_blocked_superset s c _ hb)
      · exact hnl (igStepOf_blocked_superset s c _ hb)

theorem webScrapeStep_403_blocks (s : FetcherState) (c : WebScrapeCall)
    (host : String) (h : got403 s c host) :
    host ∈ (webScrapeStep s c).state.blockedSources := by
  obtain ⟨hreq, hresp⟩ := h
  cases hc : getFromCache s c.now (webScrapeCacheKey c.category c.platform) with
  | some d =>
    rw [(webScrapeStep_hit s c d hc).1] at hreq
    cases hreq
  | none =>
    rw [webScrapeStep_miss_requested s c hc] at hreq
    rw [webScrapeStep_miss_blocked s c hc]
    rcases List.mem_append.mp hreq with h1 | h2
    · rw [igStepOf] at h1
      split_ifs at h1 with hp
      · rw [scrapeInstagramTrends_requested_eq] at h1
        split_ifs at h1 with ht
        · cases h1
        · obtain rfl := List.mem_singleton.mp h1
          rw [hostResponse, if_pos rfl] at hresp
          have hig : topHashtagsHost ∈ (igStepOf s c).blockedSources := by
            rw [igStepOf, if_pos hp, scrapeInstagramTrends_blocked_eq,
              if_pos ⟨ht, hresp⟩]
            exact List.mem_cons_self _ _
          rw [webStepOf]
          exact scrapeTrendWebsites_blocked_superset _ _ _ _ _ _ _ hig
      · cases h1
    · rcases scrapeTrendWebsites_requested_mem _ _ _ _ _ _ host h2 with
        ⟨rfl, -⟩ | ⟨rfl, -⟩
      · rw [hostResponse, if_neg (by decide), if_pos rfl] at hresp
        exact (scrapeTrendWebsites_403 _ _ _ _ _ _).1 h2 hresp
      · rw [hostResponse, if_neg (by decide), if_neg (by decide)] at hresp
        exact (scrapeTrendWebsites_403 _ _ _ _ _ _).2 h2 hresp

theorem runWebScrapeCalls_append (init : FetcherState)
    (l1 l2 : List WebScrapeCall) :
    runWebScrapeCalls init (l1 ++ l2)
      = runWebScrapeCalls (runWebScrapeCalls init l1) l2 := by
  induction l1 generalizing init with
  | nil => rfl
  | cons c cs ih => rw [List.cons_append, runWebScrapeCalls, runWebScrapeCalls, ih]

theorem runWebScrapeCalls_blocked_superset (calls : List WebScrapeCall) :
    ∀ (init : FetcherState) (x : String), x ∈ init.blockedSources →
      x ∈ (runWebScrapeCalls init calls).blockedSources := by
  induction calls with
  | nil => intro init x hx; exact hx
  | cons c cs ih =>
    intro init x hx
    rw [runWebScrapeCalls]
    exact ih _ x (webScrapeStep_blocked_superset init c x hx)

theorem stateBefore_succ (init : FetcherState) (calls : List WebScrapeCall)
    (i : Nat) (ci : WebScrapeCall) (h : calls.get? i = some ci) :
    stateBefore init calls (i + 1)
      = (webScrapeStep (stateBefore init calls i) ci).state := by
  have h' : calls[i]? = some ci := by
    rw [← List.get?_eq_getElem?]
    exact h
  rw [stateBefore, stateBefore, List.take_succ, h', runWebScrapeCalls_append]
  rfl

theorem stateBefore_blocked_mono (init : FetcherState) (calls : List WebScrapeCall)
    (i j : Nat) (hij : i ≤ j) (x : String)
    (hx : x ∈ (stateBefore init calls i).blockedSources) :
    x ∈ (stateBefore init calls j).blockedSources := by
  have hsplit : calls.take j = calls.take i ++ (calls.take j).drop i := by
    conv_lhs => rw [← List.take_append_drop i (calls.take j)]
    rw [List.take_take, Nat.min_eq_left hij]
  rw [stateBefore, hsplit, runWebScrapeCalls_append]
  exact runWebScrapeCalls_blocked_superset _ _ x hx

/-- Claim C3: a host that answers a scrape request with 403 is added to the
blocklist; a blocklisted host is skipped entirely — no network request, a
successful result — and in any same-process sequence of scrape-provider
calls, once a host has answered 403 it is never contacted again by any
later call. -/
theorem blocklist_403_persists :
    (∀ (s : FetcherState) (c : WebScrapeCall) (host : String),
        got403 s c host → host ∈ (webScrapeStep s c).state.blockedSources)
      ∧ (∀ (s : FetcherState) (c : WebScrapeCall) (host : String),
          host ∈ s.blockedSources →
            host ∉ (webScrapeStep s c).requestedHosts
              ∧ (webScrapeStep s c).result.success = true)
      ∧ (∀ (init : FetcherState) (calls : List WebScrapeCall) (i j : Nat)
          (ci cj : WebScrapeCall) (host : String), i < j →
          calls.get? i = some ci → calls.get? j = some cj →
          got403 (stateBefore init calls i) ci host →
          host ∉ (webScrapeStep (stateBefore init calls j) cj).requestedHosts) := by
  refine ⟨webScrapeStep_403_blocks, ?_, ?_⟩
  · intro s c host hb
    exact ⟨webScrapeStep_blocked_skip s c host hb, webScrapeStep_success s c⟩
  · intro init calls i j ci cj host hij hgi hgj h403
    have h1 : host ∈ (stateBefore init calls (i + 1)).blockedSources := by
      rw [stateBefore_succ init calls i ci hgi]
      exact webScrapeStep_403_blocks _ _ _ h403
    have h2 : host ∈ (stateBefore init calls j).blockedSources :=
      stateBefore_blocked_mono init calls (i + 1) j hij host h1
    exact webScrapeStep_blocked_skip _ _ _ h2

/-- First call of the concrete blocklist trace: `top-hashtags.com` answers
403. -/
def wsCall403 : WebScrapeCall :=
  { now := 0, nowStr := "t", category := "food", platform := "instagram",
    igResponse := NetResponse.httpError 403,
    allHashtagResponse := NetResponse.otherError,
    forLikesResponse := NetResponse.otherError }

/-- Second call of the concrete blocklist trace (another category, so no
cache hit). -/
def wsCallLater : WebScrapeCall :=
  { now := 1, nowStr := "t", category := "travel", platform := "instagram",
    igResponse := NetResponse.ok ["#wanderlust"],
    allHashtagResponse := NetResponse.ok ["#trip"],
    forLikesResponse := NetResponse.ok [] }

/-- Witness for C3 at a concrete trace: after the 403 in the first call, the
second call issues no request to `top-hashtags.com`. -/
theorem blocklist_403_persists_witness :
    topHashtagsHost ∉
      (webScrapeStep (stateBefore { cache := [], blockedSources := [] }
          [wsCall403, wsCallLater] 1) wsCallLater).requestedHosts :=
  blocklist_403_persists.2.2 { cache := [], blockedSources := [] }
    [wsCall403, wsCallLater] 0 1 wsCall403 wsCallLater topHashtagsHost
    (by decide) rfl rfl ⟨by decide, rfl⟩

/-! ### C5: deduplication of the aggregated pool -/

theorem insertDescBy_mem (key : TrendingHashtagData → Int) (x : TrendingHashtagData) :
    ∀ (s : List TrendingHashtagData) (z : TrendingHashtagData),
      z ∈ insertDescBy key x s ↔ z = x ∨ z ∈ s := by
  intro s
  induction s with
  | nil => intro z; simp [insertDescBy]
  | cons y ys ih =>
    intro z
    rw [insertDescBy]
    split_ifs with h
    · rw [List.mem_cons, ih z, List.mem_cons]
      tauto
    · simp

theorem insertDescBy_perm (key : TrendingHashtagData → Int) (x : TrendingHashtagData) :
    ∀ s : List TrendingHashtagData, List.Perm (insertDescBy key x s) (x :: s) := by
  intro s
  induction s with
  | nil => exact List.Perm.refl _
  | cons y ys ih =>
    rw [insertDescBy]
    split_ifs with h
    · exact List.Perm.trans (ih.cons y) (List.Perm.swap x y ys)
    · exact List.Perm.refl _

theorem foldl_insertDescBy_perm (key : TrendingHashtagData → Int) :
    ∀ (l acc : List TrendingHashtagData),
      List.Perm (l.foldl (fun a x => insertDescBy key x a) acc) (acc ++ l) := by
  intro l
  induction l with
  | nil => intro acc; simp
  | cons x xs ih =>
    intro acc
    rw [List.foldl_cons]
    refine List.Perm.trans (ih (insertDescBy key x acc)) ?_
    refine List.Perm.trans (List.Perm.append_right xs (insertDescBy_perm key x acc)) ?_
    exact List.perm_middle.symm

theorem sortDescBy_perm (key : TrendingHashtagData → Int)
    (l : List TrendingHashtagData) : List.Perm (sortDescBy key l) l := by
  have h := foldl_insertDescBy_perm key l []
  rw [sortDescBy]
  simpa using h

theorem insertDescBy_sorted (key : TrendingHashtagData → Int)
    (x : TrendingHashtagData) :
    ∀ s : List TrendingHashtagData,
      List.Pairwise (fun a b => key b ≤ key a) s →
      List.Pairwise (fun a b => key b ≤ key a) (insertDescBy key x s) := by
  intro s
  induction s with
  | nil => intro _; simp [insertDescBy]
  | cons y ys ih =>
    intro hs
    rw [insertDescBy]
    split_ifs with h
    · refine List.Pairwise.cons ?_ (ih (List.Pairwise.of_cons hs))
      intro z hz
      rcases (insertDescBy_mem key x ys z).mp hz with rfl | hz'
      · exact h
      · exact List.rel_of_pairwise_cons hs hz'
    · refine List.Pairwise.cons ?_ hs
      intro z hz
      have hyx : key y ≤ key x := le_of_lt (not_le.mp h)
      rcases List.mem_cons.mp hz with rfl | hz'
      · exact hyx
      · exact le_trans (List.rel_of_pairwise_cons hs hz') hyx

theorem sortDescBy_sorted (key : TrendingHashtagData → Int)
    (l : List TrendingHashtagData) :
    List.Pairwise (fun a b => key b ≤ key a) (sortDescBy key l) := by
  suffices h : ∀ (l acc : List TrendingHashtagData),
      List.Pairwise (fun a b => key b ≤ key a) acc →
      List.Pairwise (fun a b => key b ≤ key a)
        (l.foldl (fun a x => insertDescBy key x a) acc) by
    exact h l [] (by simp)
  intro l
  induction l with
  | nil => intro acc hacc; exact hacc
  | cons x xs ih =>
    intro acc hacc
    rw [List.foldl_cons]
    exact ih _ (insertDescBy_sorted key x acc hacc)

theorem insertDescBy_filter_eq (key : TrendingHashtagData → Int)
    (x : TrendingHashtagData) (m : Int) :
    ∀ s : List TrendingHashtagData,
      List.Pairwise (fun a b => key b ≤ key a) s →
      (insertDescBy key x s).filter (fun z => key z == m)
        = if key x = m then s.filter (fun z => key z == m) ++ [x]
          else s.filter (fun z => key z == m) := by
  intro s
  induction s with
  | nil =>
    intro _
    by_cases hxm : key x = m <;> simp [insertDescBy, List.filter_cons, hxm]
  | cons y ys ih =>
    intro hs
    rw [insertDescBy]
    by_cases hxy : key x ≤ key y
    · rw [if_pos hxy, List.filter_cons, ih (List.Pairwise.of_cons hs),
        List.filter_cons]
      by_cases hym : key y = m <;> by_cases hxm : key x = m <;>
        simp [hym, hxm]
    · rw [if_neg hxy]
      have hlt : key y < key x := not_le.mp hxy
      by_cases hxm : key x = m
      · rw [if_pos hxm]
        have hnil : (y :: ys).filter (fun z => key z == m) = [] := by
          rw [List.filter_eq_nil_iff]
          intro z hz
          have hzy : key z ≤ key y := by
            rcases List.mem_cons.mp hz with rfl | hz'
            · exact le_refl _
            · exact List.rel_of_pairwise_cons hs hz'
          have hne : key z ≠ m := by
            have : key z < key x := lt_of_le_of_lt hzy hlt
            omega
          simpa using hne
        rw [List.filter_cons_of_pos (by simpa using hxm), hnil]
        rfl
      · rw [if_neg hxm]
        rw [List.filter_cons_of_neg (by simpa using hxm)]

theorem sortDescBy_filter_eq (key : TrendingHashtagData → Int) (m : Int)
    (l : List TrendingHashtagData) :
    (sortDescBy key l).filter (fun z => key z == m)
      = l.filter (fun z => key z == m) := by
  suffices h : ∀ (l acc : List TrendingHashtagData),
      List.Pairwise (fun a b => key b ≤ key a) acc →
      (l.foldl (fun a x => insertDescBy key x a) acc).filter (fun z => key z == m)
        = acc.filter (fun z => key z == m) ++ l.filter (fun z => key z == m) by
    have := h l [] (by simp)
    rw [sortDescBy]
    simpa using this
  intro l
  induction l with
  | nil => intro acc _; simp
  | cons x xs ih =>
    intro acc hacc
    rw [List.foldl_cons, ih _ (insertDescBy_sorted key x acc hacc),
      insertDescBy_filter_eq key x m acc hacc, List.filter_cons]
    by_cases hxm : key x = m <;> simp [hxm]

theorem find?_split {α : Type} (p : α → Bool) :
    ∀ (l : List α) (y : α), l.find? p = some y →
      ∃ l1 l2, l = l1 ++ y :: l2 ∧ ∀ a ∈ l1, p a = false := by
  intro l
  induction l with
  | nil => intro y h; cases h
  | cons a as ih =>
    intro y h
    by_cases hp : p a
    · rw [List.find?_cons_of_pos _ hp] at h
      obtain rfl : a = y := by injection h
      exact ⟨[], as, rfl, by simp⟩
    · rw [List.find?_cons_of_neg _ hp] at h
      obtain ⟨l1, l2, rfl, hall⟩ := ih y h
      refine ⟨a :: l1, l2, rfl, ?_⟩
      intro b hb
      rcases List.mem_cons.mp hb with rfl | hb'
      · exact Bool.eq_false_iff.mpr hp
      · exact hall b hb'

theorem find?_append_of_forall_false {α : Type} (p : α → Bool) (l1 l2 : List α)
    (h : ∀ a ∈ l1, p a = false) :
    (l1 ++ l2).find? p = l2.find? p := by
  induction l1 with
  | nil => rfl
  | cons a as ih =>
    rw [List.cons_append, List.find?_cons_of_neg _ (by simp [h a (List.mem_cons_self a as)]),
      ih (fun b hb => h b (List.mem_cons_of_mem a hb))]

theorem find?_and_eq_filter_find? {α : Type} (p q : α → Bool) :
    ∀ l : List α, l.find? (fun z => p z && q z) = (l.filter q).find? p := by
  intro l
  induction l with
  | nil => rfl
  | cons a as ih =>
    by_cases hq : q a
    · by_cases hp : p a
      · rw [List.find?_cons_of_pos _ (by simp [hp, hq]),
          List.filter_cons_of_pos hq, List.find?_cons_of_pos _ hp]
      · rw [List.find?_cons_of_neg _ (by simp [hp]),
          List.filter_cons_of_pos hq, List.find?_cons_of_neg _ hp, ih]
    · rw [List.find?_cons_of_neg _ (by simp [hq]),
        List.filter_cons_of_neg hq, ih]

theorem removeDuplicateHashtags_pairwise_class (pool : List TrendingHashtagData) :
    List.Pairwise (fun a b => lowerString a.hashtag ≠ lowerString b.hashtag)
      (removeDuplicateHashtags pool) :=
  dedupByKey_pairwise _ _ _

theorem removeDuplicateHashtags_sorted (pool : List TrendingHashtagData) :
    List.Pairwise (fun a b => engagementKey b ≤ engagementKey a)
      (removeDuplicateHashtags pool) :=
  (sortDescBy_sorted engagementKey pool).sublist (dedupByKey_sublist _ _ _)

/-- Claim C5: `_remove_duplicate_hashtags` groups the pool by lowercased tag
text and keeps exactly one record per group — the one with the highest
effective engagement score (`engagement_score or 0`), ties broken by
first-seen order, with its original casing — and the unique list is sorted
by that score descending (stably, so equal scores keep prior order);
`get_trending_hashtags` truncates the deduplicated pool to `max_count`. -/
theorem removeDuplicates_best_per_class_sorted_truncated :
    (∀ pool : List TrendingHashtagData,
      List.Pairwise (fun a b => lowerString a.hashtag ≠ lowerString b.hashtag)
          (removeDuplicateHashtags pool)
        ∧ (∀ x ∈ pool, ∃ y ∈ removeDuplicateHashtags pool,
            lowerString y.hashtag = lowerString x.hashtag)
        ∧ (∀ y ∈ removeDuplicateHashtags pool, y ∈ pool)
        ∧ (∀ y ∈ removeDuplicateHashtags pool, ∀ x ∈ pool,
            lowerString x.hashtag = lowerString y.hashtag →
              engagementKey x ≤ engagementKey y)
        ∧ (∀ y ∈ removeDuplicateHashtags pool,
            pool.find? (fun x => (lowerString x.hashtag == lowerString y.hashtag)
              && (engagementKey x == engagementKey y)) = some y)
        ∧ List.Pairwise (fun a b => engagementKey b ≤ engagementKey a)
            (removeDuplicateHashtags pool))
      ∧ (∀ (s : FetcherState) (now : ℚ) (nowStr category platform : String)
          (maxCount : Nat) (r1 r2 r3 : NetResponse),
          ((getTrendingHashtags s now nowStr category platform maxCount
              r1 r2 r3).1.hashtags).length ≤ maxCount
            ∧ List.Pairwise (fun a b => lowerString a.hashtag ≠ lowerString b.hashtag)
                ((getTrendingHashtags s now nowStr category platform maxCount
                  r1 r2 r3).1.hashtags)
            ∧ List.Pairwise (fun a b => engagementKey b ≤ engagementKey a)
                ((getTrendingHashtags s now nowStr category platform maxCount
                  r1 r2 r3).1.hashtags)) := by
  constructor
  · intro pool
    have hsorted := sortDescBy_sorted engagementKey pool
    have hperm := sortDescBy_perm engagementKey pool
    have hd : removeDuplicateHashtags pool
        = dedupByKey (fun h => lowerString h.hashtag)
            (sortDescBy engagementKey pool) [] := rfl
    refine ⟨removeDuplicateHashtags_pairwise_class pool, ?_, ?_, ?_, ?_,
      removeDuplicateHashtags_sorted pool⟩
    · intro x hx
      have hx' : x ∈ sortDescBy engagementKey pool := hperm.mem_iff.mpr hx
      rw [hd]
      exact dedupByKey_coverage _ _ [] x hx' (by simp)
    · intro y hy
      rw [hd] at hy
      exact hperm.mem_iff.mp (mem_of_mem_dedupByKey hy)
    · intro y hy x hx hcls
      rw [hd] at hy
      have hf := dedupByKey_find? (fun h => lowerString h.hashtag) _ [] y hy
      obtain ⟨l1, l2, hsplit, hl1⟩ := find?_split _ _ y hf
      have hx' : x ∈ sortDescBy engagementKey pool := hperm.mem_iff.mpr hx
      rw [hsplit] at hx' hsorted
      rcases List.mem_append.mp hx' with h1 | h2
      · exfalso
        have hfalse := hl1 x h1
        simp only [hcls] at hfalse
        simp at hfalse
      · rcases List.mem_cons.mp h2 with rfl | h2'
        · exact le_refl _
        · exact List.rel_of_pairwise_cons (List.pairwise_append.mp hsorted).2.1 h2'
    · intro y hy
      rw [hd] at hy
      have hf := dedupByKey_find? (fun h => lowerString h.hashtag) _ [] y hy
      rw [find?_and_eq_filter_find?]
      rw [← sortDescBy_filter_eq engagementKey (engagementKey y) pool]
      obtain ⟨l1, l2, hsplit, hl1⟩ := find?_split _ _ y hf
      rw [hsplit, List.filter_append, List.filter_cons_of_pos (by simp),
        find?_append_of_forall_false _ _ _
          (fun a ha => hl1 a (List.mem_filter.mp ha).1),
        List.find?_cons_of_pos _ (by simp)]
  · intro s now nowStr category platform maxCount r1 r2 r3
    rw [getTrendingHashtags]
    split_ifs <;>
      refine ⟨?_, ?_, ?_⟩ <;>
        first
          | exact List.Pairwise.nil
          | exact (removeDuplicateHashtags_pairwise_class _).sublist
              (List.take_sublist _ _)
          | exact (removeDuplicateHashtags_sorted _).sublist
              (List.take_sublist _ _)
          | simp [List.length_take, Nat.min_le_left]

/-- A concrete pool with case-insensitive duplicates and score ties. -/
def poolTies : List TrendingHashtagData :=
  [{ hashtag := "#Food", platform := "instagram", engagementScore := some 100 },
   { hashtag := "#food", platform := "instagram", engagementScore := some 300 },
   { hashtag := "#cat", platform := "instagram", engagementScore := some 200 },
   { hashtag := "#FOOD", platform := "instagram", engagementScore := some 300 }]

/-- The expected representative of the `#food` group in `poolTies`. -/
def foodRep : TrendingHashtagData :=
  { hashtag := "#food", platform := "instagram", engagementScore := some 300 }

/-- Witness for C5 at a concrete input: the representative of the
`#food` group is the first-seen highest-scored spelling `#food` (300),
located by the first-match search of the original pool. -/
theorem removeDuplicates_best_per_class_sorted_truncated_witness :
    poolTies.find? (fun x =>
        (lowerString x.hashtag == lowerString foodRep.hashtag)
        && (engagementKey x == engagementKey foodRep))
      = some foodRep :=
  (removeDuplicates_best_per_class_sorted_truncated.1 poolTies).2.2.2.2.1
    foodRep
    (by decide)

end CaptionsAI
